import Mathlib

/-!
# L-SMASH Works, AviSynth video output (video_output.cpp)

A shallow embedding of `AviSynth/video_output.cpp`: the pixel format negotiation
(`determine_colorspace_conversion`), the range hack (`avoid_yuv_scale_conversion`),
the three output profiles (black background fill and frame conversion) and the
per frame driver `make_frame` with its cached scaler context.

Conventions of the embedding.

* C `int` values are `Int`. The source performs no arithmetic that is meant to wrap;
  signed overflow is undefined in C and lies outside the model.
* Pointers into the frame buffers are byte addresses (`Int`), the null pointer is `NULL`.
  The scaler handle `struct SwsContext *` is `Option Handle`, null being `none`.
* Memory is a map from byte address to byte value.
* libswscale is an external collaborator. Its two entry points are fields of `Backend`,
  arbitrary functions of their arguments; every call made to them is recorded in a log
  of `Event`s so that the arguments and the order of the calls can be observed.
* Calling a null function pointer is undefined; `make_frame` returns `none` there.
-/

namespace VideoOutput

/-! ## Data model -/

/-- Pixel format identifiers of libavutil (`enum AVPixelFormat`). The members named in
the source are constructors of their own; `other n` stands for every remaining member
of the enumeration (and any other integer stored in `AVFrame.format`). Only the fact
that distinct members are distinct is used. -/
inductive AVPixelFormat where
  | AV_PIX_FMT_NONE
  | AV_PIX_FMT_YUV420P
  | AV_PIX_FMT_YUYV422
  | AV_PIX_FMT_RGB24
  | AV_PIX_FMT_BGR24
  | AV_PIX_FMT_YUV422P
  | AV_PIX_FMT_YUV444P
  | AV_PIX_FMT_YUVJ420P
  | AV_PIX_FMT_YUVJ422P
  | AV_PIX_FMT_YUVJ444P
  | AV_PIX_FMT_UYVY422
  | AV_PIX_FMT_NV12
  | AV_PIX_FMT_NV21
  | AV_PIX_FMT_ARGB
  | AV_PIX_FMT_RGBA
  | AV_PIX_FMT_ABGR
  | AV_PIX_FMT_BGRA
  | other (n : Nat)
  deriving DecidableEq

open AVPixelFormat

/-- AviSynth pixel type constants of `VideoInfo` that the source assigns to
`*output_pixel_type`. -/
inductive PixelType where
  | CS_UNKNOWN
  | CS_I420
  | CS_YUY2
  | CS_BGR32
  deriving DecidableEq

open PixelType

/-- The null pointer. Pointers into frame buffers are byte addresses of type `Int`. -/
def NULL : Int := 0

/-- Byte addressed memory; a byte is a natural number below 256. -/
abbrev Memory := Int → Nat

/-- Identity of a live `struct SwsContext`. -/
abbrev Handle := Nat

/-- Plane selector of `GetWritePtr`, `GetPitch` and `GetHeight`; `DEFAULT` is the
defaulted argument of the calls written without a plane. -/
inductive Plane where
  | DEFAULT
  | PLANAR_Y
  | PLANAR_U
  | PLANAR_V
  deriving DecidableEq

open Plane

/-- The AviSynth destination frame as seen through the three accessors the source
calls on it. -/
structure PVideoFrame where
  GetWritePtr : Plane → Int
  GetPitch : Plane → Int
  GetHeight : Plane → Int

/-- The decoded frame (`AVFrame`): plane pointers, line sizes, dimensions, format. -/
structure AVFrame where
  data : Nat → Int
  linesize : Nat → Int
  width : Int
  height : Int
  format : AVPixelFormat

/-- Destination picture handed to `sws_scale` (`AVPicture`). -/
structure AVPicture where
  data : Nat → Int
  linesize : Nat → Int

/-- The initializer `{ { { NULL } } }`: every pointer null, every line size zero. -/
def AVPicture.zero : AVPicture :=
  { data := fun _ => NULL, linesize := fun _ => 0 }

/-- Array element assignment `a[i] = v`. -/
def set_index {α : Type} (a : Nat → α) (i : Nat) (v : α) : Nat → α :=
  fun j => if j = i then v else a j

/-- The black background routines a profile can point to. -/
inductive BackgroundFn where
  | make_black_background_yuv420p
  | make_black_background_yuv422
  | make_black_background_rgba32
  deriving DecidableEq

/-- The frame conversion routines a profile can point to. -/
inductive FrameFn where
  | make_frame_yuv420p
  | make_frame_yuv422
  | make_frame_rgba32
  deriving DecidableEq

/-- The scaler part of the handler (`video_scaler_handler_t`), with the fields the
source reads or writes. -/
structure video_scaler_handler_t where
  enabled : Int
  flags : Int
  input_width : Int
  input_height : Int
  input_pixel_format : AVPixelFormat
  output_pixel_format : AVPixelFormat
  sws_ctx : Option Handle

/-- The AviSynth private handler (`as_video_output_handler_t`): two function pointers,
`none` being the null pointer. -/
structure as_video_output_handler_t where
  make_black_background : Option BackgroundFn
  make_frame : Option FrameFn

/-- The output handler (`video_output_handler_t`). -/
structure video_output_handler_t where
  scaler : video_scaler_handler_t
  private_handler : as_video_output_handler_t

/-! ## Range hack and format negotiation -/

/-- The table `range_hack_table`, sentinel included. -/
def range_hack_table : List (AVPixelFormat × AVPixelFormat) :=
  [ (AV_PIX_FMT_YUVJ420P, AV_PIX_FMT_YUV420P),
    (AV_PIX_FMT_YUVJ422P, AV_PIX_FMT_YUV422P),
    (AV_PIX_FMT_NONE,     AV_PIX_FMT_NONE) ]

/-- The loop of `avoid_yuv_scale_conversion` over the rest of the table: it stops at
the first entry whose `full` member is the sentinel, and it has no `break`, so after a
replacement the remaining entries are compared with the replaced value. -/
def range_hack_loop : List (AVPixelFormat × AVPixelFormat) → AVPixelFormat → AVPixelFormat
  | [], f => f
  | (full, limited) :: rest, f =>
      if full = AV_PIX_FMT_NONE then f
      else range_hack_loop rest (if f = full then limited else f)

/-- The function `avoid_yuv_scale_conversion`; the value returned is the new content of
`*input_pixel_format`. -/
def avoid_yuv_scale_conversion (input_pixel_format : AVPixelFormat) : AVPixelFormat :=
  range_hack_loop range_hack_table input_pixel_format

/-- The table `conversion_table`, sentinel included. -/
def conversion_table : List (AVPixelFormat × AVPixelFormat) :=
  [ (AV_PIX_FMT_YUV420P, AV_PIX_FMT_YUV420P),
    (AV_PIX_FMT_NV12,    AV_PIX_FMT_YUV420P),
    (AV_PIX_FMT_NV21,    AV_PIX_FMT_YUV420P),
    (AV_PIX_FMT_YUYV422, AV_PIX_FMT_YUYV422),
    (AV_PIX_FMT_YUV422P, AV_PIX_FMT_YUYV422),
    (AV_PIX_FMT_UYVY422, AV_PIX_FMT_YUYV422),
    (AV_PIX_FMT_ARGB,    AV_PIX_FMT_BGRA),
    (AV_PIX_FMT_RGBA,    AV_PIX_FMT_BGRA),
    (AV_PIX_FMT_ABGR,    AV_PIX_FMT_BGRA),
    (AV_PIX_FMT_BGRA,    AV_PIX_FMT_BGRA),
    (AV_PIX_FMT_RGB24,   AV_PIX_FMT_BGRA),
    (AV_PIX_FMT_BGR24,   AV_PIX_FMT_BGRA),
    (AV_PIX_FMT_NONE,    AV_PIX_FMT_NONE) ]

/-- The lookup loop of `determine_colorspace_conversion`: it stops at the first entry
whose output member is the sentinel and breaks at the first entry whose input member
matches. The third argument is the current `scaler.output_pixel_format`. -/
def conversion_loop :
    List (AVPixelFormat × AVPixelFormat) → AVPixelFormat → AVPixelFormat → AVPixelFormat
  | [], _, out => out
  | (input, output) :: rest, f, out =>
      if output = AV_PIX_FMT_NONE then out
      else if input = f then output
      else conversion_loop rest f out

/-- Everything `determine_colorspace_conversion` returns or writes. -/
structure NegotiationResult where
  ret : Int
  vohp : video_output_handler_t
  input_pixel_format : AVPixelFormat
  output_pixel_type : PixelType

/-- The function `determine_colorspace_conversion`. -/
def determine_colorspace_conversion (vohp : video_output_handler_t)
    (input_pixel_format : AVPixelFormat) : NegotiationResult :=
  let input_pixel_format := avoid_yuv_scale_conversion input_pixel_format
  let scaler := { vohp.scaler with output_pixel_format := AV_PIX_FMT_NONE }
  let scaler := { scaler with
    output_pixel_format :=
      conversion_loop conversion_table input_pixel_format scaler.output_pixel_format }
  match scaler.output_pixel_format with
  | AV_PIX_FMT_YUV420P =>
      { ret := 0
        vohp := { scaler := scaler
                  private_handler :=
                    { make_black_background := some BackgroundFn.make_black_background_yuv420p
                      make_frame := some FrameFn.make_frame_yuv420p } }
        input_pixel_format := input_pixel_format
        output_pixel_type := CS_I420 }
  | AV_PIX_FMT_YUYV422 =>
      { ret := 0
        vohp := { scaler := scaler
                  private_handler :=
                    { make_black_background := some BackgroundFn.make_black_background_yuv422
                      make_frame := some FrameFn.make_frame_yuv422 } }
        input_pixel_format := input_pixel_format
        output_pixel_type := CS_YUY2 }
  | AV_PIX_FMT_BGRA =>
      { ret := 0
        vohp := { scaler := scaler
                  private_handler :=
                    { make_black_background := some BackgroundFn.make_black_background_rgba32
                      make_frame := some FrameFn.make_frame_rgba32 } }
        input_pixel_format := input_pixel_format
        output_pixel_type := CS_BGR32 }
  | _ =>
      { ret := -1
        vohp := { scaler := scaler
                  private_handler := { make_black_background := none, make_frame := none } }
        input_pixel_format := input_pixel_format
        output_pixel_type := CS_UNKNOWN }

/-! ## Memory and the black background routines -/

/-- The libc routine `memset( s, c, n )`: the `n` bytes from `s` take the value of `c`
converted to `unsigned char`. -/
def memset (mem : Memory) (s : Int) (c : Int) (n : Nat) : Memory :=
  fun a => if s ≤ a ∧ a < s + (n : Int) then (c % 256).toNat else mem a

/-- Conversion of an `int` byte count to the `size_t` argument of `memset`. A negative
count has no meaningful conversion (the call would be undefined); it is mapped to 0. -/
def size_of_int (n : Int) : Nat := n.toNat

/-- The function `make_black_background_yuv420p`. -/
def make_black_background_yuv420p (frame : PVideoFrame) (mem : Memory) : Memory :=
  let mem := memset mem (frame.GetWritePtr PLANAR_Y) 0x00
    (size_of_int (frame.GetPitch PLANAR_Y * frame.GetHeight PLANAR_Y))
  let mem := memset mem (frame.GetWritePtr PLANAR_U) 0x80
    (size_of_int (frame.GetPitch PLANAR_U * frame.GetHeight PLANAR_U))
  memset mem (frame.GetWritePtr PLANAR_V) 0x80
    (size_of_int (frame.GetPitch PLANAR_V * frame.GetHeight PLANAR_V))

/-- Byte order of the machine for multi byte stores. -/
inductive Endian where
  | little
  | big
  deriving DecidableEq

/-- Byte number `k` (0 to 3, in increasing address order) of the 32 bit word `w` as
stored in memory. -/
def word_byte (e : Endian) (w : Nat) (k : Nat) : Nat :=
  match e with
  | Endian.little => (w / 256 ^ k) % 256
  | Endian.big => (w / 256 ^ (3 - k)) % 256

/-- A 32 bit store `*p = w` through a `uint32_t *`. -/
def store32 (e : Endian) (mem : Memory) (p : Int) (w : Nat) : Memory :=
  fun a => if p ≤ a ∧ a < p + 4 then word_byte e w (a - p).toNat else mem a

/-- A 32 bit load `*p` through a `uint32_t *`. -/
def load32 (e : Endian) (mem : Memory) (p : Int) : Nat :=
  match e with
  | Endian.little =>
      mem p + 256 * mem (p + 1) + 256 ^ 2 * mem (p + 2) + 256 ^ 3 * mem (p + 3)
  | Endian.big =>
      256 ^ 3 * mem p + 256 ^ 2 * mem (p + 1) + 256 * mem (p + 2) + mem (p + 3)

/-- The body of the loop of `make_black_background_yuv422`, run for the given number of
remaining iterations: `*p++ = 0x00800080`. -/
def yuv422_loop (e : Endian) : Nat → Int → Memory → Memory
  | 0, _, mem => mem
  | n + 1, p, mem => yuv422_loop e n (p + 4) (store32 e mem p 0x00800080)

/-- The function `make_black_background_yuv422`. The loop `for( i = 0; i < num_loops; i++ )`
runs `num_loops` times when `num_loops` is positive and not at all otherwise; the
division is the truncating division of C. -/
def make_black_background_yuv422 (e : Endian) (frame : PVideoFrame) (mem : Memory) : Memory :=
  let p := frame.GetWritePtr DEFAULT
  let num_loops := Int.tdiv (frame.GetPitch DEFAULT * frame.GetHeight DEFAULT) 4
  yuv422_loop e num_loops.toNat p mem

/-- The function `make_black_background_rgba32`. -/
def make_black_background_rgba32 (frame : PVideoFrame) (mem : Memory) : Memory :=
  memset mem (frame.GetWritePtr DEFAULT) 0x00
    (size_of_int (frame.GetPitch DEFAULT * frame.GetHeight DEFAULT))

/-- Call through the function pointer `make_black_background`. -/
def BackgroundFn.call (e : Endian) : BackgroundFn → PVideoFrame → Memory → Memory
  | BackgroundFn.make_black_background_yuv420p => VideoOutput.make_black_background_yuv420p
  | BackgroundFn.make_black_background_yuv422 => VideoOutput.make_black_background_yuv422 e
  | BackgroundFn.make_black_background_rgba32 => VideoOutput.make_black_background_rgba32

/-! ## The scaling backend and the frame routines -/

/-- The arguments of one `sws_getCachedContext` call (the three trailing null
arguments are left out). -/
structure ContextRequest where
  context : Option Handle
  srcW : Int
  srcH : Int
  srcFormat : AVPixelFormat
  dstW : Int
  dstH : Int
  dstFormat : AVPixelFormat
  flags : Int
  deriving DecidableEq

/-- The arguments of one `sws_scale` call, with the memory as it is when the call is
made. -/
structure ScaleCall where
  c : Option Handle
  srcSlice : Nat → Int
  srcStride : Nat → Int
  srcSliceY : Int
  srcSliceH : Int
  dst : Nat → Int
  dstStride : Nat → Int
  mem : Memory

/-- The external scaling library: the context request answers with a handle or with
null; the scale call answers with a row count and leaves the memory in some state. -/
structure Backend where
  sws_getCachedContext : ContextRequest → Option Handle
  sws_scale : ScaleCall → Int × Memory

/-- An observable step of `make_frame`. -/
inductive Event where
  | context_request (r : ContextRequest)
  | black_background (fn : BackgroundFn) (frame : PVideoFrame)
  | frame_routine (fn : FrameFn)
  | scale (call : ScaleCall)

/-- Result of a frame routine: return value, memory afterwards, and the backend call
it made. -/
structure ConvertResult where
  ret : Int
  mem : Memory
  call : ScaleCall

/-- The function `convert_av_pixel_format`. -/
def convert_av_pixel_format (be : Backend) (sws_ctx : Option Handle) (av_frame : AVFrame)
    (av_picture : AVPicture) (mem : Memory) : ConvertResult :=
  let call : ScaleCall :=
    { c := sws_ctx
      srcSlice := av_frame.data
      srcStride := av_frame.linesize
      srcSliceY := 0
      srcSliceH := av_frame.height
      dst := av_picture.data
      dstStride := av_picture.linesize
      mem := mem }
  let r := be.sws_scale call
  let ret := r.1
  { ret := if ret > 0 then ret else -1, mem := r.2, call := call }

/-- The function `make_frame_yuv420p`. -/
def make_frame_yuv420p (be : Backend) (sws_ctx : Option Handle) (av_frame : AVFrame)
    (as_frame : PVideoFrame) (mem : Memory) : ConvertResult :=
  let av_picture := AVPicture.zero
  let av_picture := { av_picture with data := set_index av_picture.data 0 (as_frame.GetWritePtr PLANAR_Y) }
  let av_picture := { av_picture with data := set_index av_picture.data 1 (as_frame.GetWritePtr PLANAR_U) }
  let av_picture := { av_picture with data := set_index av_picture.data 2 (as_frame.GetWritePtr PLANAR_V) }
  let av_picture := { av_picture with linesize := set_index av_picture.linesize 0 (as_frame.GetPitch PLANAR_Y) }
  let av_picture := { av_picture with linesize := set_index av_picture.linesize 1 (as_frame.GetPitch PLANAR_U) }
  let av_picture := { av_picture with linesize := set_index av_picture.linesize 2 (as_frame.GetPitch PLANAR_V) }
  convert_av_pixel_format be sws_ctx av_frame av_picture mem

/-- The function `make_frame_yuv422`. -/
def make_frame_yuv422 (be : Backend) (sws_ctx : Option Handle) (av_frame : AVFrame)
    (as_frame : PVideoFrame) (mem : Memory) : ConvertResult :=
  let av_picture := AVPicture.zero
  let av_picture := { av_picture with data := set_index av_picture.data 0 (as_frame.GetWritePtr DEFAULT) }
  let av_picture := { av_picture with linesize := set_index av_picture.linesize 0 (as_frame.GetPitch DEFAULT) }
  convert_av_pixel_format be sws_ctx av_frame av_picture mem

/-- The function `make_frame_rgba32`. -/
def make_frame_rgba32 (be : Backend) (sws_ctx : Option Handle) (av_frame : AVFrame)
    (as_frame : PVideoFrame) (mem : Memory) : ConvertResult :=
  let av_picture := AVPicture.zero
  let av_picture := { av_picture with
    data := set_index av_picture.data 0
      (as_frame.GetWritePtr DEFAULT
        + as_frame.GetPitch DEFAULT * (as_frame.GetHeight DEFAULT - 1)) }
  let av_picture := { av_picture with
    linesize := set_index av_picture.linesize 0 (-as_frame.GetPitch DEFAULT) }
  convert_av_pixel_format be sws_ctx av_frame av_picture mem

/-- Call through the function pointer `make_frame` of the private handler. -/
def FrameFn.call (be : Backend) :
    FrameFn → Option Handle → AVFrame → PVideoFrame → Memory → ConvertResult
  | FrameFn.make_frame_yuv420p => VideoOutput.make_frame_yuv420p be
  | FrameFn.make_frame_yuv422 => VideoOutput.make_frame_yuv422 be
  | FrameFn.make_frame_rgba32 => VideoOutput.make_frame_rgba32 be

/-! ## The per frame driver -/

/-- Everything one `make_frame` call returns or leaves behind: the return value, the
handler, the source frame (its format field is written), the memory, and the log of
the steps taken in order. -/
structure MakeFrameResult where
  ret : Int
  vohp : video_output_handler_t
  av_frame : AVFrame
  mem : Memory
  log : List Event

/-- The last three lines of `make_frame`: the black background routine and then the
frame routine, both called through the function pointers of the private handler.
A null function pointer makes the call undefined (`none`). -/
def make_frame_tail (e : Endian) (be : Backend) (vohp : video_output_handler_t)
    (av_frame : AVFrame) (as_frame : PVideoFrame) (mem : Memory) (log : List Event) :
    Option MakeFrameResult :=
  match vohp.private_handler.make_black_background with
  | none => none
  | some bg =>
      let mem := bg.call e as_frame mem
      match vohp.private_handler.make_frame with
      | none => none
      | some mf =>
          let r := mf.call be vohp.scaler.sws_ctx av_frame as_frame mem
          some { ret := r.ret
                 vohp := vohp
                 av_frame := av_frame
                 mem := r.mem
                 log := log ++ [Event.black_background bg as_frame, Event.frame_routine mf,
                                Event.scale r.call] }

/-- The function `make_frame`. -/
def make_frame (e : Endian) (be : Backend) (vohp : video_output_handler_t)
    (av_frame : AVFrame) (as_frame : PVideoFrame) (mem : Memory) : Option MakeFrameResult :=
  let input_pixel_format := avoid_yuv_scale_conversion av_frame.format
  let av_frame := { av_frame with format := input_pixel_format }
  let vshp := vohp.scaler
  if vshp.sws_ctx = none
      ∨ vshp.input_width ≠ av_frame.width
      ∨ vshp.input_height ≠ av_frame.height
      ∨ vshp.input_pixel_format ≠ input_pixel_format then
    let request : ContextRequest :=
      { context := vshp.sws_ctx
        srcW := av_frame.width
        srcH := av_frame.height
        srcFormat := input_pixel_format
        dstW := av_frame.width
        dstH := av_frame.height
        dstFormat := vshp.output_pixel_format
        flags := vshp.flags }
    let vshp := { vshp with sws_ctx := be.sws_getCachedContext request }
    if vshp.sws_ctx = none then
      some { ret := -1
             vohp := { vohp with scaler := vshp }
             av_frame := av_frame
             mem := mem
             log := [Event.context_request request] }
    else
      let vshp := { vshp with input_width := av_frame.width }
      let vshp := { vshp with input_height := av_frame.height }
      let vshp := { vshp with input_pixel_format := input_pixel_format }
      let vshp := { vshp with
        enabled := if input_pixel_format ≠ vshp.output_pixel_format then 1 else 0 }
      make_frame_tail e be { vohp with scaler := vshp } av_frame as_frame mem
        [Event.context_request request]
  else
    make_frame_tail e be vohp av_frame as_frame mem []

/-- One `make_frame` call of a sequence: the source frame, the destination frame, and
the behaviour of the backend during that call. -/
structure Call where
  be : Backend
  av_frame : AVFrame
  as_frame : PVideoFrame

/-- A sequence of `make_frame` calls on one handler, each call starting from the
handler and the memory the previous call left. The result lists the outcome of every
call; it is `none` when some call is undefined. -/
def make_frames (e : Endian) :
    video_output_handler_t → Memory → List Call → Option (List MakeFrameResult)
  | _, _, [] => some []
  | vohp, mem, c :: cs =>
      match make_frame e c.be vohp c.av_frame c.as_frame mem with
      | none => none
      | some r =>
          match make_frames e r.vohp r.mem cs with
          | none => none
          | some rs => some (r :: rs)

/-- Whether an event is a backend context request. -/
def Event.is_context_request : Event → Bool
  | Event.context_request _ => true
  | _ => false

/-- Number of backend context requests in a log. -/
def context_requests (log : List Event) : Nat :=
  (log.filter Event.is_context_request).length

/-- Number of backend context requests made over a sequence of calls. -/
def total_context_requests : List MakeFrameResult → Nat
  | [] => 0
  | r :: rs => context_requests r.log + total_context_requests rs

/-- The cache key of a frame: width, height and normalized pixel format. -/
def frame_triple (f : AVFrame) : Int × Int × AVPixelFormat :=
  (f.width, f.height, avoid_yuv_scale_conversion f.format)

/-- Number of frames of the list whose triple differs from the triple of the frame
before it, the first frame being compared with `prev`. -/
def triple_changes_from (prev : Int × Int × AVPixelFormat) : List AVFrame → Nat
  | [] => 0
  | f :: fs =>
      (if frame_triple f ≠ prev then 1 else 0) + triple_changes_from (frame_triple f) fs

/-- Number of consecutive frame pairs of the list whose triples differ. -/
def triple_changes : List AVFrame → Nat
  | [] => 0
  | f :: fs => triple_changes_from (frame_triple f) fs

/-- The triple recorded in the scaler. -/
def recorded_triple (s : video_scaler_handler_t) : Int × Int × AVPixelFormat :=
  (s.input_width, s.input_height, s.input_pixel_format)

/-- The byte extent `[ptr, ptr + pitch * height)` of a plane of the destination. -/
def in_extent (frame : PVideoFrame) (plane : Plane) (a : Int) : Prop :=
  frame.GetWritePtr plane ≤ a
    ∧ a < frame.GetWritePtr plane + frame.GetPitch plane * frame.GetHeight plane

instance (frame : PVideoFrame) (plane : Plane) (a : Int) : Decidable (in_extent frame plane a) := by
  unfold in_extent; infer_instance

/-! ## Helpers for stating the contracts of `make_frame` -/

/-- The argument list of the `sws_getCachedContext` call of `make_frame`. -/
def rebuild_request (vohp : video_output_handler_t) (av_frame : AVFrame) : ContextRequest :=
  { context := vohp.scaler.sws_ctx
    srcW := av_frame.width
    srcH := av_frame.height
    srcFormat := avoid_yuv_scale_conversion av_frame.format
    dstW := av_frame.width
    dstH := av_frame.height
    dstFormat := vohp.scaler.output_pixel_format
    flags := vohp.scaler.flags }

/-- The scaler after a rebuild that obtained `ctx`: the four assignments that follow
the null test of `make_frame`. -/
def rebuilt_scaler (s : video_scaler_handler_t) (av_frame : AVFrame) (ctx : Option Handle) :
    video_scaler_handler_t :=
  { s with
    sws_ctx := ctx
    input_width := av_frame.width
    input_height := av_frame.height
    input_pixel_format := avoid_yuv_scale_conversion av_frame.format
    enabled := if avoid_yuv_scale_conversion av_frame.format ≠ s.output_pixel_format then 1 else 0 }

/-- The staleness test of `make_frame`: no handle, or a recorded triple that differs
from the triple of the frame. -/
def needs_rebuild (vohp : video_output_handler_t) (av_frame : AVFrame) : Prop :=
  vohp.scaler.sws_ctx = none ∨ recorded_triple vohp.scaler ≠ frame_triple av_frame

instance (vohp : video_output_handler_t) (av_frame : AVFrame) :
    Decidable (needs_rebuild vohp av_frame) := by
  unfold needs_rebuild; infer_instance

/-! ## Concrete inputs -/

/-- A handler with no backend handle and no profile selected. -/
def fresh_handler : video_output_handler_t :=
  { scaler :=
      { enabled := 0, flags := 0, input_width := 0, input_height := 0
        input_pixel_format := AV_PIX_FMT_NONE, output_pixel_format := AV_PIX_FMT_NONE
        sws_ctx := none }
    private_handler := { make_black_background := none, make_frame := none } }

/-- A source frame of the given size and format with null plane pointers. -/
def plain_frame (width height : Int) (format : AVPixelFormat) : AVFrame :=
  { data := fun _ => NULL, linesize := fun _ => 0, width := width, height := height,
    format := format }

/-- A backend that always hands out handle 1 and reports every row converted without
touching the memory. -/
def steady_backend : Backend :=
  { sws_getCachedContext := fun _ => some 1
    sws_scale := fun call => (call.srcSliceH, call.mem) }

/-- A backend whose context request always fails. -/
def failing_backend : Backend :=
  { sws_getCachedContext := fun _ => none
    sws_scale := fun call => (call.srcSliceH, call.mem) }

/-- A backend that grants every context request and whose scale call converts no row. -/
def stalled_backend : Backend :=
  { sws_getCachedContext := fun _ => some 1
    sws_scale := fun call => (0, call.mem) }

/-- A planar 4:2:0 destination of 4 by 2 pixels: Y at address 100 (pitch 4, height 2),
U at address 108 and V at address 110 (pitch 2, height 1). -/
def small_planar_frame : PVideoFrame :=
  { GetWritePtr := fun p =>
      match p with
      | PLANAR_U => 108
      | PLANAR_V => 110
      | _ => 100
    GetPitch := fun p =>
      match p with
      | PLANAR_U => 2
      | PLANAR_V => 2
      | _ => 4
    GetHeight := fun p =>
      match p with
      | PLANAR_U => 1
      | PLANAR_V => 1
      | _ => 2 }

/-- A packed destination with one plane at address `ptr`. -/
def packed_frame (ptr : Int) (pitch height : Int) : PVideoFrame :=
  { GetWritePtr := fun _ => ptr, GetPitch := fun _ => pitch, GetHeight := fun _ => height }

/-- The handler after negotiating planar 4:2:0 input on a fresh handler. -/
def negotiated_handler : video_output_handler_t :=
  (determine_colorspace_conversion fresh_handler AV_PIX_FMT_YUV420P).vohp

/-- One call with the steady backend and the small planar destination. -/
def steady_call (width height : Int) (format : AVPixelFormat) : Call :=
  { be := steady_backend, av_frame := plain_frame width height format,
    as_frame := small_planar_frame }

/-- The end to end scenario: three 1920 by 1080 planar 4:2:0 frames, then one of
1280 by 720. -/
def scenario_calls : List Call :=
  [ steady_call 1920 1080 AV_PIX_FMT_YUV420P,
    steady_call 1920 1080 AV_PIX_FMT_YUV420P,
    steady_call 1920 1080 AV_PIX_FMT_YUV420P,
    steady_call 1280 720 AV_PIX_FMT_YUV420P ]

/-- The handler after a first 1920 by 1080 planar 4:2:0 frame on the negotiated
handler, the backend having handed out handle 7: the handle and the triple of that
frame are recorded. -/
def warm_handler : video_output_handler_t :=
  { negotiated_handler with
    scaler := rebuilt_scaler negotiated_handler.scaler
      (plain_frame 1920 1080 AV_PIX_FMT_YUV420P) (some 7) }

/-- The address of row `row` of destination plane 0 of a scale call: the plane pointer
plus `row` times the line size, the addressing rule of libswscale pictures. -/
def dst_row_address (call : ScaleCall) (row : Int) : Int :=
  call.dst 0 + row * call.dstStride 0

/-! ## Shared lemmas -/

theorem avoid_cases (f : AVPixelFormat) :
    avoid_yuv_scale_conversion f =
      if f = AV_PIX_FMT_YUVJ420P then AV_PIX_FMT_YUV420P
      else if f = AV_PIX_FMT_YUVJ422P then AV_PIX_FMT_YUV422P
      else f := by
  cases f <;> simp [avoid_yuv_scale_conversion, range_hack_table, range_hack_loop]

theorem needs_rebuild_iff (vohp : video_output_handler_t) (f : AVFrame) :
    needs_rebuild vohp f ↔
      (vohp.scaler.sws_ctx = none
        ∨ vohp.scaler.input_width ≠ f.width
        ∨ vohp.scaler.input_height ≠ f.height
        ∨ vohp.scaler.input_pixel_format ≠ avoid_yuv_scale_conversion f.format) := by
  unfold needs_rebuild recorded_triple frame_triple
  simp only [ne_eq, Prod.mk.injEq, not_and_or]

/-- A call that finds the cache fresh goes straight to the last three lines. -/
theorem make_frame_hit (e : Endian) (be : Backend) (vohp : video_output_handler_t)
    (f : AVFrame) (asf : PVideoFrame) (mem : Memory) (h : ¬ needs_rebuild vohp f) :
    make_frame e be vohp f asf mem
      = make_frame_tail e be vohp { f with format := avoid_yuv_scale_conversion f.format }
          asf mem [] := by
  rw [needs_rebuild_iff] at h
  unfold make_frame
  simp only []
  rw [if_neg h]

/-- A call whose context request fails returns at once. -/
theorem make_frame_fail (e : Endian) (be : Backend) (vohp : video_output_handler_t)
    (f : AVFrame) (asf : PVideoFrame) (mem : Memory) (h : needs_rebuild vohp f)
    (hfail : be.sws_getCachedContext (rebuild_request vohp f) = none) :
    make_frame e be vohp f asf mem
      = some { ret := -1
               vohp := { vohp with scaler := { vohp.scaler with sws_ctx := none } }
               av_frame := { f with format := avoid_yuv_scale_conversion f.format }
               mem := mem
               log := [Event.context_request (rebuild_request vohp f)] } := by
  rw [needs_rebuild_iff] at h
  unfold rebuild_request at *
  unfold make_frame
  simp only []
  rw [if_pos h, if_pos hfail, hfail]

/-- A call whose context request succeeds records the triple and goes on. -/
theorem make_frame_rebuild (e : Endian) (be : Backend) (vohp : video_output_handler_t)
    (f : AVFrame) (asf : PVideoFrame) (mem : Memory) (h : needs_rebuild vohp f)
    (hsucc : be.sws_getCachedContext (rebuild_request vohp f) ≠ none) :
    make_frame e be vohp f asf mem
      = make_frame_tail e be
          { vohp with scaler :=
              rebuilt_scaler vohp.scaler f (be.sws_getCachedContext (rebuild_request vohp f)) }
          { f with format := avoid_yuv_scale_conversion f.format } asf mem
          [Event.context_request (rebuild_request vohp f)] := by
  rw [needs_rebuild_iff] at h
  unfold rebuild_request at *
  unfold make_frame
  simp only []
  rw [if_pos h, if_neg hsucc]
  rfl

/-- With both function pointers set the last three lines always complete. -/
theorem make_frame_tail_eq (e : Endian) (be : Backend) (vohp : video_output_handler_t)
    (f : AVFrame) (asf : PVideoFrame) (mem : Memory) (log : List Event)
    (bg : BackgroundFn) (mf : FrameFn)
    (hbg : vohp.private_handler.make_black_background = some bg)
    (hmf : vohp.private_handler.make_frame = some mf) :
    make_frame_tail e be vohp f asf mem log
      = some { ret := (mf.call be vohp.scaler.sws_ctx f asf (bg.call e asf mem)).ret
               vohp := vohp
               av_frame := f
               mem := (mf.call be vohp.scaler.sws_ctx f asf (bg.call e asf mem)).mem
               log := log ++ [Event.black_background bg asf, Event.frame_routine mf,
                 Event.scale (mf.call be vohp.scaler.sws_ctx f asf (bg.call e asf mem)).call] } := by
  unfold make_frame_tail
  rw [hbg, hmf]

/-- One call under a backend that grants every request: the call completes, keeps the
profile, leaves a handle and the triple of the frame recorded, and issues one request
exactly when the cache was stale. -/
theorem make_frame_step (e : Endian) (be : Backend) (vohp : video_output_handler_t)
    (f : AVFrame) (asf : PVideoFrame) (mem : Memory) (bg : BackgroundFn) (mf : FrameFn)
    (hbg : vohp.private_handler.make_black_background = some bg)
    (hmf : vohp.private_handler.make_frame = some mf)
    (hbe : ∀ req, be.sws_getCachedContext req ≠ none) :
    ∃ r, make_frame e be vohp f asf mem = some r
      ∧ r.vohp.private_handler = vohp.private_handler
      ∧ r.vohp.scaler.sws_ctx ≠ none
      ∧ recorded_triple r.vohp.scaler = frame_triple f
      ∧ context_requests r.log = if needs_rebuild vohp f then 1 else 0 := by
  by_cases h : needs_rebuild vohp f
  · rw [make_frame_rebuild e be vohp f asf mem h (hbe _)]
    rw [make_frame_tail_eq e be _ _ asf mem _ bg mf (by exact hbg) (by exact hmf)]
    refine ⟨_, rfl, rfl, ?_, rfl, ?_⟩
    · exact hbe _
    · simp [h, context_requests, Event.is_context_request]
  · rw [make_frame_hit e be vohp f asf mem h]
    rw [make_frame_tail_eq e be _ _ asf mem _ bg mf hbg hmf]
    have h' := h
    unfold needs_rebuild at h'
    push_neg at h'
    refine ⟨_, rfl, rfl, h'.1, h'.2, ?_⟩
    simp [h, context_requests, Event.is_context_request]

/-- A sequence of calls under backends that grant every request, started with a handle
present: the requests are as many as the triple changes counted from the recorded
triple. -/
theorem make_frames_warm (e : Endian) (bg : BackgroundFn) (mf : FrameFn) (cs : List Call) :
    ∀ (vohp : video_output_handler_t) (mem : Memory),
      vohp.private_handler.make_black_background = some bg →
      vohp.private_handler.make_frame = some mf →
      vohp.scaler.sws_ctx ≠ none →
      (∀ c ∈ cs, ∀ req, c.be.sws_getCachedContext req ≠ none) →
      ∃ rs, make_frames e vohp mem cs = some rs
        ∧ rs.length = cs.length
        ∧ total_context_requests rs
            = triple_changes_from (recorded_triple vohp.scaler) (cs.map Call.av_frame) := by
  induction cs with
  | nil =>
      intro vohp mem _ _ _ _
      exact ⟨[], rfl, rfl, rfl⟩
  | cons c cs ih =>
      intro vohp mem hbg hmf hctx hbe
      obtain ⟨r, hr, hprof, hctx', htrip, hcount⟩ :=
        make_frame_step e c.be vohp c.av_frame c.as_frame mem bg mf hbg hmf
          (hbe c (List.mem_cons_self _ _))
      obtain ⟨rs, hrs, hlen, htot⟩ :=
        ih r.vohp r.mem (by rw [hprof]; exact hbg) (by rw [hprof]; exact hmf) hctx'
          (fun c' hc' => hbe c' (List.mem_cons_of_mem _ hc'))
      refine ⟨r :: rs, ?_, ?_, ?_⟩
      · simp only [make_frames, hr, hrs]
      · simp [hlen]
      · simp only [total_context_requests, List.map_cons, triple_changes_from, hcount, htot,
          htrip]
        congr 1
        have : needs_rebuild vohp c.av_frame ↔ frame_triple c.av_frame ≠ recorded_triple vohp.scaler := by
          unfold needs_rebuild
          constructor
          · rintro (h | h)
            · exact absurd h hctx
            · exact fun h2 => h h2.symm
          · intro h
            exact Or.inr (fun h2 => h h2.symm)
        by_cases hn : needs_rebuild vohp c.av_frame
        · rw [if_pos hn, if_pos (this.mp hn)]
        · rw [if_neg hn, if_neg (fun h2 => hn (this.mpr h2))]

/-! ## C1: format negotiation -/

/-- C1. `determine_colorspace_conversion`, for every handler and every input pixel
format: when the normalized format is one of the 12 keys of `conversion_table` the
call returns 0, stores the output format of the table, the matching pair of routines
and the matching AviSynth pixel type; for every other format (the sentinel included)
it returns -1, stores `AV_PIX_FMT_NONE`, clears both function pointers and reports
`CS_UNKNOWN`. -/
theorem determine_colorspace_conversion_contract (vohp : video_output_handler_t)
    (f : AVPixelFormat) :
    (avoid_yuv_scale_conversion f ∈ [AV_PIX_FMT_YUV420P, AV_PIX_FMT_NV12, AV_PIX_FMT_NV21] →
      (determine_colorspace_conversion vohp f).ret = 0
      ∧ (determine_colorspace_conversion vohp f).vohp.scaler.output_pixel_format
          = AV_PIX_FMT_YUV420P
      ∧ (determine_colorspace_conversion vohp f).vohp.private_handler.make_black_background
          = some BackgroundFn.make_black_background_yuv420p
      ∧ (determine_colorspace_conversion vohp f).vohp.private_handler.make_frame
          = some FrameFn.make_frame_yuv420p
      ∧ (determine_colorspace_conversion vohp f).output_pixel_type = CS_I420)
    ∧ (avoid_yuv_scale_conversion f
          ∈ [AV_PIX_FMT_YUYV422, AV_PIX_FMT_YUV422P, AV_PIX_FMT_UYVY422] →
      (determine_colorspace_conversion vohp f).ret = 0
      ∧ (determine_colorspace_conversion vohp f).vohp.scaler.output_pixel_format
          = AV_PIX_FMT_YUYV422
      ∧ (determine_colorspace_conversion vohp f).vohp.private_handler.make_black_background
          = some BackgroundFn.make_black_background_yuv422
      ∧ (determine_colorspace_conversion vohp f).vohp.private_handler.make_frame
          = some FrameFn.make_frame_yuv422
      ∧ (determine_colorspace_conversion vohp f).output_pixel_type = CS_YUY2)
    ∧ (avoid_yuv_scale_conversion f
          ∈ [AV_PIX_FMT_ARGB, AV_PIX_FMT_RGBA, AV_PIX_FMT_ABGR, AV_PIX_FMT_BGRA,
             AV_PIX_FMT_RGB24, AV_PIX_FMT_BGR24] →
      (determine_colorspace_conversion vohp f).ret = 0
      ∧ (determine_colorspace_conversion vohp f).vohp.scaler.output_pixel_format
          = AV_PIX_FMT_BGRA
      ∧ (determine_colorspace_conversion vohp f).vohp.private_handler.make_black_background
          = some BackgroundFn.make_black_background_rgba32
      ∧ (determine_colorspace_conversion vohp f).vohp.private_handler.make_frame
          = some FrameFn.make_frame_rgba32
      ∧ (determine_colorspace_conversion vohp f).output_pixel_type = CS_BGR32)
    ∧ (avoid_yuv_scale_conversion f
          ∉ [AV_PIX_FMT_YUV420P, AV_PIX_FMT_NV12, AV_PIX_FMT_NV21,
             AV_PIX_FMT_YUYV422, AV_PIX_FMT_YUV422P, AV_PIX_FMT_UYVY422,
             AV_PIX_FMT_ARGB, AV_PIX_FMT_RGBA, AV_PIX_FMT_ABGR, AV_PIX_FMT_BGRA,
             AV_PIX_FMT_RGB24, AV_PIX_FMT_BGR24] →
      (determine_colorspace_conversion vohp f).ret = -1
      ∧ (determine_colorspace_conversion vohp f).vohp.scaler.output_pixel_format
          = AV_PIX_FMT_NONE
      ∧ (determine_colorspace_conversion vohp f).vohp.private_handler.make_black_background
          = none
      ∧ (determine_colorspace_conversion vohp f).vohp.private_handler.make_frame = none
      ∧ (determine_colorspace_conversion vohp f).output_pixel_type = CS_UNKNOWN) := by
  cases f <;>
    simp [determine_colorspace_conversion, avoid_cases, conversion_table, conversion_loop]

/-- C1 at concrete inputs: NV12 is a key and selects the planar profile; the sentinel
is not a key and yields the unsupported result. -/
theorem determine_colorspace_conversion_contract_witness :
    (avoid_yuv_scale_conversion AV_PIX_FMT_NV12
        ∈ [AV_PIX_FMT_YUV420P, AV_PIX_FMT_NV12, AV_PIX_FMT_NV21]
      ∧ (determine_colorspace_conversion fresh_handler AV_PIX_FMT_NV12).ret = 0
      ∧ (determine_colorspace_conversion fresh_handler
            AV_PIX_FMT_NV12).vohp.scaler.output_pixel_format = AV_PIX_FMT_YUV420P)
    ∧ (avoid_yuv_scale_conversion AV_PIX_FMT_NONE
        ∉ [AV_PIX_FMT_YUV420P, AV_PIX_FMT_NV12, AV_PIX_FMT_NV21,
           AV_PIX_FMT_YUYV422, AV_PIX_FMT_YUV422P, AV_PIX_FMT_UYVY422,
           AV_PIX_FMT_ARGB, AV_PIX_FMT_RGBA, AV_PIX_FMT_ABGR, AV_PIX_FMT_BGRA,
           AV_PIX_FMT_RGB24, AV_PIX_FMT_BGR24]
      ∧ (determine_colorspace_conversion fresh_handler AV_PIX_FMT_NONE).ret = -1
      ∧ (determine_colorspace_conversion fresh_handler
            AV_PIX_FMT_NONE).vohp.private_handler.make_frame = none) :=
  ⟨⟨by decide,
    ((determine_colorspace_conversion_contract fresh_handler AV_PIX_FMT_NV12).1
      (by decide)).1,
    ((determine_colorspace_conversion_contract fresh_handler AV_PIX_FMT_NV12).1
      (by decide)).2.1⟩,
   ⟨by decide,
    ((determine_colorspace_conversion_contract fresh_handler AV_PIX_FMT_NONE).2.2.2
      (by decide)).1,
    ((determine_colorspace_conversion_contract fresh_handler AV_PIX_FMT_NONE).2.2.2
      (by decide)).2.2.2.1⟩⟩

/-! ## C2: the range hack is idempotent -/

/-- C2. Applying `avoid_yuv_scale_conversion` twice gives the same format as applying
it once, for every pixel format; on the limited range siblings YUV420P and YUV422P it
changes nothing. -/
theorem avoid_yuv_scale_conversion_idempotent (f : AVPixelFormat) :
    avoid_yuv_scale_conversion (avoid_yuv_scale_conversion f) = avoid_yuv_scale_conversion f
    ∧ avoid_yuv_scale_conversion AV_PIX_FMT_YUV420P = AV_PIX_FMT_YUV420P
    ∧ avoid_yuv_scale_conversion AV_PIX_FMT_YUV422P = AV_PIX_FMT_YUV422P := by
  refine ⟨?_, by decide, by decide⟩
  cases f <;> simp [avoid_cases]

/-! ## C3: cache correctness -/

/-- C3. Starting from a handler with no backend handle and a selected profile, with
backends that grant every context request, every sequence of one or more `make_frame`
calls completes and issues exactly 1 plus the number of consecutive frame pairs with
differing (width, height, normalized format) triples context requests. -/
theorem make_frame_cache_correct (e : Endian) (vohp : video_output_handler_t) (mem : Memory)
    (c : Call) (cs : List Call) (bg : BackgroundFn) (mf : FrameFn)
    (hnull : vohp.scaler.sws_ctx = none)
    (hbg : vohp.private_handler.make_black_background = some bg)
    (hmf : vohp.private_handler.make_frame = some mf)
    (hbe : ∀ c' ∈ c :: cs, ∀ req, c'.be.sws_getCachedContext req ≠ none) :
    ∃ rs, make_frames e vohp mem (c :: cs) = some rs
      ∧ rs.length = (c :: cs).length
      ∧ total_context_requests rs = 1 + triple_changes ((c :: cs).map Call.av_frame) := by
  obtain ⟨r, hr, hprof, hctx, htrip, hcount⟩ :=
    make_frame_step e c.be vohp c.av_frame c.as_frame mem bg mf hbg hmf
      (hbe c (List.mem_cons_self _ _))
  obtain ⟨rs, hrs, hlen, htot⟩ :=
    make_frames_warm e bg mf cs r.vohp r.mem (by rw [hprof]; exact hbg)
      (by rw [hprof]; exact hmf) hctx (fun c' hc' => hbe c' (List.mem_cons_of_mem _ hc'))
  refine ⟨r :: rs, ?_, ?_, ?_⟩
  · simp only [make_frames, hr, hrs]
  · simp [hlen]
  · have hn : needs_rebuild vohp c.av_frame := Or.inl hnull
    simp only [total_context_requests, List.map_cons, triple_changes, hcount, htot, htrip,
      if_pos hn]

/-- C3 on the end to end scenario: three 1920 by 1080 frames and then one of 1280 by 720
cause two context requests in all, one creation and one rebuild. -/
theorem make_frame_cache_correct_witness :
    negotiated_handler.scaler.sws_ctx = none
    ∧ triple_changes (scenario_calls.map Call.av_frame) = 1
    ∧ ∃ rs, make_frames Endian.little negotiated_handler (fun _ => 0) scenario_calls = some rs
        ∧ rs.length = 4
        ∧ total_context_requests rs = 1 + triple_changes (scenario_calls.map Call.av_frame) :=
  ⟨rfl, by decide,
    make_frame_cache_correct Endian.little negotiated_handler (fun _ => 0)
      (steady_call 1920 1080 AV_PIX_FMT_YUV420P)
      [ steady_call 1920 1080 AV_PIX_FMT_YUV420P,
        steady_call 1920 1080 AV_PIX_FMT_YUV420P,
        steady_call 1280 720 AV_PIX_FMT_YUV420P ]
      BackgroundFn.make_black_background_yuv420p FrameFn.make_frame_yuv420p
      rfl rfl rfl
      (by
        intro c' hc' req
        simp only [List.mem_cons, List.mem_singleton, List.not_mem_nil, or_false] at hc'
        rcases hc' with h | h | h | h <;> subst h <;> simp [steady_call, steady_backend])⟩

/-! ## Memory lemmas -/

theorem memset_inside (mem : Memory) (s : Int) (c : Int) (n : Int) (a : Int)
    (h1 : s ≤ a) (h2 : a < s + n) :
    memset mem s c (size_of_int n) a = (c % 256).toNat := by
  unfold memset size_of_int
  have : ((n.toNat : Nat) : Int) = n := Int.toNat_of_nonneg (by omega)
  rw [this, if_pos ⟨h1, h2⟩]

theorem memset_outside (mem : Memory) (s : Int) (c : Int) (n : Int) (a : Int)
    (h : ¬ (s ≤ a ∧ a < s + n)) :
    memset mem s c (size_of_int n) a = mem a := by
  unfold memset size_of_int
  have : ¬ (s ≤ a ∧ a < s + ((n.toNat : Nat) : Int)) := by
    intro h'
    apply h
    rcases Int.le_total 0 n with hn | hn
    · have := Int.toNat_of_nonneg hn
      omega
    · have := Int.toNat_eq_zero.mpr hn
      omega
  rw [if_neg this]

theorem yuv422_loop_apply (e : Endian) (n : Nat) :
    ∀ (p : Int) (mem : Memory) (a : Int),
      yuv422_loop e n p mem a
        = if p ≤ a ∧ a < p + 4 * (n : Int) then word_byte e 0x00800080 ((a - p).toNat % 4)
          else mem a := by
  induction n with
  | zero =>
      intro p mem a
      have : ¬ (p ≤ a ∧ a < p + 4 * ((0 : Nat) : Int)) := by omega
      rw [if_neg this]
      rfl
  | succ n ih =>
      intro p mem a
      show yuv422_loop e n (p + 4) (store32 e mem p 0x00800080) a = _
      rw [ih]
      unfold store32
      by_cases h1 : p + 4 ≤ a ∧ a < p + 4 + 4 * (n : Int)
      · have h2 : p ≤ a ∧ a < p + 4 * ((n + 1 : Nat) : Int) := by omega
        rw [if_pos h1, if_pos h2]
        congr 1
        have e1 := Int.toNat_of_nonneg (show 0 ≤ a - (p + 4) by omega)
        have e2 := Int.toNat_of_nonneg (show 0 ≤ a - p by omega)
        omega
      · rw [if_neg h1]
        by_cases h3 : p ≤ a ∧ a < p + 4
        · have h2 : p ≤ a ∧ a < p + 4 * ((n + 1 : Nat) : Int) := by omega
          rw [if_pos h3, if_pos h2]
          congr 1
          have e2 := Int.toNat_of_nonneg (show 0 ≤ a - p by omega)
          omega
        · have h2 : ¬ (p ≤ a ∧ a < p + 4 * ((n + 1 : Nat) : Int)) := by omega
          rw [if_neg h3, if_neg h2]

/-- The bytes that the loop of `make_black_background_yuv422` reaches: the first
`4 * (pitch * height / 4)` bytes from the write pointer. -/
theorem make_black_background_yuv422_byte (e : Endian) (frame : PVideoFrame) (mem : Memory)
    (hN : 0 ≤ frame.GetPitch DEFAULT * frame.GetHeight DEFAULT) (a : Int)
    (h1 : frame.GetWritePtr DEFAULT ≤ a)
    (h2 : a < frame.GetWritePtr DEFAULT
            + 4 * (frame.GetPitch DEFAULT * frame.GetHeight DEFAULT / 4)) :
    make_black_background_yuv422 e frame mem a
      = word_byte e 0x00800080 ((a - frame.GetWritePtr DEFAULT).toNat % 4) := by
  unfold make_black_background_yuv422
  rw [yuv422_loop_apply, Int.tdiv_eq_ediv hN (by decide),
    Int.toNat_of_nonneg (Int.ediv_nonneg hN (by decide)), if_pos ⟨h1, h2⟩]

/-- The bytes that the loop of `make_black_background_yuv422` does not reach keep their
value. -/
theorem make_black_background_yuv422_rest (e : Endian) (frame : PVideoFrame) (mem : Memory)
    (hN : 0 ≤ frame.GetPitch DEFAULT * frame.GetHeight DEFAULT) (a : Int)
    (h : ¬ (frame.GetWritePtr DEFAULT ≤ a
            ∧ a < frame.GetWritePtr DEFAULT
                + 4 * (frame.GetPitch DEFAULT * frame.GetHeight DEFAULT / 4))) :
    make_black_background_yuv422 e frame mem a = mem a := by
  unfold make_black_background_yuv422
  rw [yuv422_loop_apply, Int.tdiv_eq_ediv hN (by decide),
    Int.toNat_of_nonneg (Int.ediv_nonneg hN (by decide)), if_neg h]

theorem load32_of_bytes (e : Endian) (mem : Memory) (p : Int)
    (h0 : mem p = word_byte e 0x00800080 0) (h1 : mem (p + 1) = word_byte e 0x00800080 1)
    (h2 : mem (p + 2) = word_byte e 0x00800080 2)
    (h3 : mem (p + 3) = word_byte e 0x00800080 3) :
    load32 e mem p = 0x00800080 := by
  unfold load32
  cases e <;> simp only [h0, h1, h2, h3] <;> decide

/-! ## C4: neutral fill of the memset based profiles -/

/-- C4. For a planar destination whose three plane extents do not overlap, after
`make_black_background_yuv420p` every byte of the Y extent is 0x00 and every byte of
the U extent and of the V extent is 0x80, each extent taken with the pitch and height
of its own plane; after `make_black_background_rgba32` every byte of the extent of a
packed destination is 0x00; on these extents the result is the same for any two
previous memory contents. -/
theorem make_black_background_memset_exact (planar packed : PVideoFrame) (mem mem2 : Memory)
    (hYU : ∀ a, in_extent planar PLANAR_Y a → ¬ in_extent planar PLANAR_U a)
    (hYV : ∀ a, in_extent planar PLANAR_Y a → ¬ in_extent planar PLANAR_V a)
    (hUV : ∀ a, in_extent planar PLANAR_U a → ¬ in_extent planar PLANAR_V a) :
    (∀ a, in_extent planar PLANAR_Y a → make_black_background_yuv420p planar mem a = 0x00)
    ∧ (∀ a, in_extent planar PLANAR_U a → make_black_background_yuv420p planar mem a = 0x80)
    ∧ (∀ a, in_extent planar PLANAR_V a → make_black_background_yuv420p planar mem a = 0x80)
    ∧ (∀ a, in_extent packed DEFAULT a → make_black_background_rgba32 packed mem a = 0x00)
    ∧ (∀ a, in_extent planar PLANAR_Y a ∨ in_extent planar PLANAR_U a
              ∨ in_extent planar PLANAR_V a →
          make_black_background_yuv420p planar mem a
            = make_black_background_yuv420p planar mem2 a)
    ∧ (∀ a, in_extent packed DEFAULT a →
          make_black_background_rgba32 packed mem a
            = make_black_background_rgba32 packed mem2 a) := by
  have hY : ∀ (m : Memory) a, in_extent planar PLANAR_Y a →
      make_black_background_yuv420p planar m a = 0x00 := by
    intro m a ha
    unfold make_black_background_yuv420p
    rw [memset_outside _ _ _ _ _ (hYV a ha), memset_outside _ _ _ _ _ (hYU a ha),
      memset_inside _ _ _ _ _ ha.1 ha.2]
    decide
  have hU : ∀ (m : Memory) a, in_extent planar PLANAR_U a →
      make_black_background_yuv420p planar m a = 0x80 := by
    intro m a ha
    unfold make_black_background_yuv420p
    rw [memset_outside _ _ _ _ _ (hUV a ha), memset_inside _ _ _ _ _ ha.1 ha.2]
    decide
  have hV : ∀ (m : Memory) a, in_extent planar PLANAR_V a →
      make_black_background_yuv420p planar m a = 0x80 := by
    intro m a ha
    unfold make_black_background_yuv420p
    rw [memset_inside _ _ _ _ _ ha.1 ha.2]
    decide
  have hP : ∀ (m : Memory) a, in_extent packed DEFAULT a →
      make_black_background_rgba32 packed m a = 0x00 := by
    intro m a ha
    unfold make_black_background_rgba32
    rw [memset_inside _ _ _ _ _ ha.1 ha.2]
    decide
  refine ⟨hY mem, hU mem, hV mem, hP mem, ?_, ?_⟩
  · rintro a (ha | ha | ha)
    · rw [hY mem a ha, hY mem2 a ha]
    · rw [hU mem a ha, hU mem2 a ha]
    · rw [hV mem a ha, hV mem2 a ha]
  · intro a ha
    rw [hP mem a ha, hP mem2 a ha]

/-- C4 on the small planar destination and a packed destination of 8 by 2 bytes, with
previous contents 0xFF and 0x11. -/
theorem make_black_background_memset_exact_witness :
    (∀ a, in_extent small_planar_frame PLANAR_Y a → ¬ in_extent small_planar_frame PLANAR_U a)
    ∧ (∀ a, in_extent small_planar_frame PLANAR_Y a → ¬ in_extent small_planar_frame PLANAR_V a)
    ∧ (∀ a, in_extent small_planar_frame PLANAR_U a → ¬ in_extent small_planar_frame PLANAR_V a)
    ∧ in_extent small_planar_frame PLANAR_Y 107
    ∧ make_black_background_yuv420p small_planar_frame (fun _ => 0xFF) 107 = 0x00
    ∧ in_extent small_planar_frame PLANAR_U 109
    ∧ make_black_background_yuv420p small_planar_frame (fun _ => 0xFF) 109 = 0x80
    ∧ in_extent small_planar_frame PLANAR_V 111
    ∧ make_black_background_yuv420p small_planar_frame (fun _ => 0xFF) 111 = 0x80
    ∧ in_extent (packed_frame 200 8 2) DEFAULT 215
    ∧ make_black_background_rgba32 (packed_frame 200 8 2) (fun _ => 0xFF) 215 = 0x00 :=
  have hYU : ∀ a, in_extent small_planar_frame PLANAR_Y a →
      ¬ in_extent small_planar_frame PLANAR_U a := by
    intro a h h2
    simp only [in_extent, small_planar_frame] at h h2
    omega
  have hYV : ∀ a, in_extent small_planar_frame PLANAR_Y a →
      ¬ in_extent small_planar_frame PLANAR_V a := by
    intro a h h2
    simp only [in_extent, small_planar_frame] at h h2
    omega
  have hUV : ∀ a, in_extent small_planar_frame PLANAR_U a →
      ¬ in_extent small_planar_frame PLANAR_V a := by
    intro a h h2
    simp only [in_extent, small_planar_frame] at h h2
    omega
  have hw := make_black_background_memset_exact small_planar_frame (packed_frame 200 8 2)
    (fun _ => 0xFF) (fun _ => 0x11) hYU hYV hUV
  ⟨hYU, hYV, hUV, by decide, hw.1 107 (by decide), by decide, hw.2.1 109 (by decide),
    by decide, hw.2.2.1 111 (by decide), by decide, hw.2.2.2.1 215 (by decide)⟩

/-! ## C5: neutral fill of the packed 4:2:2 profile -/

/-- C5 as stated fails. With write pointer 200, pitch 6 and height 3 the extent has 18
bytes, the loop runs 18 / 4 = 4 times and stores 16 bytes; the byte at offset 16
(address 216) lies in the extent and keeps its previous value 0xFF. So the statement
that for every pitch and height that are not negative every byte of the extent carries
the repeating word is false. -/
theorem make_black_background_yuv422_whole_extent_counterexample :
    in_extent (packed_frame 200 6 3) DEFAULT 216
    ∧ make_black_background_yuv422 Endian.little (packed_frame 200 6 3) (fun _ => 0xFF) 216
        = 0xFF
    ∧ ¬ (∀ (e : Endian) (frame : PVideoFrame) (mem : Memory),
          0 ≤ frame.GetPitch DEFAULT → 0 ≤ frame.GetHeight DEFAULT →
          ∀ a, in_extent frame DEFAULT a →
            make_black_background_yuv422 e frame mem a
              = word_byte e 0x00800080 ((a - frame.GetWritePtr DEFAULT).toNat % 4)) := by
  refine ⟨by decide, by decide, ?_⟩
  intro h
  have h216 := h Endian.little (packed_frame 200 6 3) (fun _ => 0xFF) (by decide) (by decide)
    216 (by decide)
  revert h216
  decide

/-- C5 amended. For every pitch and height that are not negative and whose product is a
multiple of 4, after `make_black_background_yuv422` every 32 bit word of the extent
loads as 0x00800080, every byte of the extent is the byte of that word at its offset
modulo 4, and on the extent the result is the same for any two previous memory
contents. -/
theorem make_black_background_yuv422_whole_extent (e : Endian) (frame : PVideoFrame)
    (mem mem2 : Memory)
    (hp : 0 ≤ frame.GetPitch DEFAULT) (hh : 0 ≤ frame.GetHeight DEFAULT)
    (hdiv : 4 ∣ frame.GetPitch DEFAULT * frame.GetHeight DEFAULT) :
    (∀ k : Int, 0 ≤ k → 4 * k < frame.GetPitch DEFAULT * frame.GetHeight DEFAULT →
        load32 e (make_black_background_yuv422 e frame mem) (frame.GetWritePtr DEFAULT + 4 * k)
          = 0x00800080)
    ∧ (∀ a, in_extent frame DEFAULT a →
        make_black_background_yuv422 e frame mem a
          = word_byte e 0x00800080 ((a - frame.GetWritePtr DEFAULT).toNat % 4))
    ∧ (∀ a, in_extent frame DEFAULT a →
        make_black_background_yuv422 e frame mem a
          = make_black_background_yuv422 e frame mem2 a) := by
  have hN : 0 ≤ frame.GetPitch DEFAULT * frame.GetHeight DEFAULT := Int.mul_nonneg hp hh
  have hfull : 4 * (frame.GetPitch DEFAULT * frame.GetHeight DEFAULT / 4)
      = frame.GetPitch DEFAULT * frame.GetHeight DEFAULT := Int.mul_ediv_cancel' hdiv
  have hbyte : ∀ (m : Memory) a, in_extent frame DEFAULT a →
      make_black_background_yuv422 e frame m a
        = word_byte e 0x00800080 ((a - frame.GetWritePtr DEFAULT).toNat % 4) := by
    intro m a ha
    exact make_black_background_yuv422_byte e frame m hN a ha.1 (by rw [hfull]; exact ha.2)
  refine ⟨?_, hbyte mem, ?_⟩
  · intro k hk0 hk
    generalize hNdef : frame.GetPitch DEFAULT * frame.GetHeight DEFAULT = N at hdiv hN hk
    have hoff : ∀ j : Int, 0 ≤ j → j < 4 →
        in_extent frame DEFAULT (frame.GetWritePtr DEFAULT + 4 * k + j) := by
      intro j hj0 hj4
      unfold in_extent
      rw [hNdef]
      omega
    have hmod : ∀ j : Nat, j < 4 →
        (frame.GetWritePtr DEFAULT + 4 * k + (j : Int) - frame.GetWritePtr DEFAULT).toNat % 4
          = j := by
      intro j hj
      have := Int.toNat_of_nonneg
        (show 0 ≤ frame.GetWritePtr DEFAULT + 4 * k + (j : Int) - frame.GetWritePtr DEFAULT by
          omega)
      omega
    apply load32_of_bytes
    · have := hbyte mem _ (hoff 0 (by decide) (by decide))
      rw [Int.add_zero] at this
      rw [this]
      have := hmod 0 (by decide)
      simp only [Nat.cast_zero, Int.add_zero] at this
      rw [this]
    · have := hbyte mem _ (hoff 1 (by decide) (by decide))
      rw [Int.add_assoc] at this
      rw [Int.add_assoc, this]
      have := hmod 1 (by decide)
      simp only [Nat.cast_one, Int.add_assoc] at this
      rw [this]
    · have := hbyte mem _ (hoff 2 (by decide) (by decide))
      rw [Int.add_assoc] at this
      rw [Int.add_assoc, this]
      have := hmod 2 (by decide)
      simp only [Nat.cast_ofNat, Int.add_assoc] at this
      rw [this]
    · have := hbyte mem _ (hoff 3 (by decide) (by decide))
      rw [Int.add_assoc] at this
      rw [Int.add_assoc, this]
      have := hmod 3 (by decide)
      simp only [Nat.cast_ofNat, Int.add_assoc] at this
      rw [this]
  · intro a ha
    rw [hbyte mem a ha, hbyte mem2 a ha]

/-- C5 amended, on a packed destination of pitch 8 and height 2 at address 200 with
previous contents 0xFF: the last word of the extent loads as 0x00800080 and the last
byte of the extent is 0x00. -/
theorem make_black_background_yuv422_whole_extent_witness :
    (0 : Int) ≤ (packed_frame 200 8 2).GetPitch DEFAULT
    ∧ (0 : Int) ≤ (packed_frame 200 8 2).GetHeight DEFAULT
    ∧ (4 : Int) ∣ (packed_frame 200 8 2).GetPitch DEFAULT * (packed_frame 200 8 2).GetHeight DEFAULT
    ∧ load32 Endian.little
        (make_black_background_yuv422 Endian.little (packed_frame 200 8 2) (fun _ => 0xFF))
        ((packed_frame 200 8 2).GetWritePtr DEFAULT + 4 * 3) = 0x00800080
    ∧ make_black_background_yuv422 Endian.little (packed_frame 200 8 2) (fun _ => 0xFF) 215
        = word_byte Endian.little 0x00800080
            ((215 - (packed_frame 200 8 2).GetWritePtr DEFAULT).toNat % 4) :=
  have hw := make_black_background_yuv422_whole_extent Endian.little (packed_frame 200 8 2)
    (fun _ => 0xFF) (fun _ => 0x11) (by decide) (by decide) (by decide)
  ⟨by decide, by decide, by decide, hw.1 3 (by decide) (by decide), hw.2.1 215 (by decide)⟩

/-! ## Lemmas on the frame routines -/

/-- Every frame routine returns what `convert_av_pixel_format` makes of the row count
of its one backend call, and leaves the memory as that call left it. -/
theorem frame_routine_result (be : Backend) (mf : FrameFn) (ctx : Option Handle)
    (f : AVFrame) (asf : PVideoFrame) (mem : Memory) :
    (mf.call be ctx f asf mem).ret
        = (if (be.sws_scale (mf.call be ctx f asf mem).call).1 > 0
            then (be.sws_scale (mf.call be ctx f asf mem).call).1 else -1)
    ∧ (mf.call be ctx f asf mem).mem = (be.sws_scale (mf.call be ctx f asf mem).call).2
    ∧ (mf.call be ctx f asf mem).call.c = ctx
    ∧ (mf.call be ctx f asf mem).call.mem = mem := by
  cases mf <;> exact ⟨rfl, rfl, rfl, rfl⟩

/-- A call whose context is available runs the last three lines on a handler with the
same private handler, after at most context request steps. -/
theorem make_frame_available (e : Endian) (be : Backend) (vohp : video_output_handler_t)
    (f : AVFrame) (asf : PVideoFrame) (mem : Memory)
    (havail : ¬ needs_rebuild vohp f
      ∨ be.sws_getCachedContext (rebuild_request vohp f) ≠ none) :
    ∃ (v : video_output_handler_t) (pre : List Event),
      make_frame e be vohp f asf mem
        = make_frame_tail e be v { f with format := avoid_yuv_scale_conversion f.format }
            asf mem pre
      ∧ v.private_handler = vohp.private_handler
      ∧ (∀ ev ∈ pre, ev.is_context_request = true) := by
  by_cases h : needs_rebuild vohp f
  · have hs : be.sws_getCachedContext (rebuild_request vohp f) ≠ none := by
      rcases havail with h' | h'
      · exact absurd h h'
      · exact h'
    refine ⟨_, _, make_frame_rebuild e be vohp f asf mem h hs, rfl, ?_⟩
    intro ev hev
    rw [List.mem_singleton] at hev
    rw [hev]
    rfl
  · refine ⟨_, _, make_frame_hit e be vohp f asf mem h, rfl, ?_⟩
    intro ev hev
    exact absurd hev (List.not_mem_nil _)

/-! ## C6: geometry of the BGRA profile -/

/-- C6. For every destination with write pointer `b`, pitch `p` and height `h`, the one
backend call of `make_frame_rgba32` receives destination pointer 0 equal to
`b + p * (h - 1)` and destination line size 0 equal to `-p`; every other destination
pointer is null and every other line size is 0. -/
theorem make_frame_rgba32_geometry (be : Backend) (sws_ctx : Option Handle)
    (av_frame : AVFrame) (as_frame : PVideoFrame) (mem : Memory) :
    (make_frame_rgba32 be sws_ctx av_frame as_frame mem).call.dst 0
        = as_frame.GetWritePtr DEFAULT
          + as_frame.GetPitch DEFAULT * (as_frame.GetHeight DEFAULT - 1)
    ∧ (make_frame_rgba32 be sws_ctx av_frame as_frame mem).call.dstStride 0
        = -as_frame.GetPitch DEFAULT
    ∧ (∀ i : Nat, (make_frame_rgba32 be sws_ctx av_frame as_frame mem).call.dst (i + 1) = NULL
        ∧ (make_frame_rgba32 be sws_ctx av_frame as_frame mem).call.dstStride (i + 1) = 0)
    ∧ (make_frame_rgba32 be sws_ctx av_frame as_frame mem).mem
        = (be.sws_scale (make_frame_rgba32 be sws_ctx av_frame as_frame mem).call).2 := by
  refine ⟨rfl, rfl, ?_, rfl⟩
  intro i
  exact ⟨rfl, rfl⟩

/-! ## C7: failure propagation -/

/-- C7. With a profile selected, every `make_frame` call completes and never returns 0;
when its conversion context is available (the cache is fresh or the context request is
granted) the call ends with one backend scale call, returns -1 when that call reports a
count that is not positive and returns the count itself when it is positive. This holds
for each of the three frame routines. -/
theorem make_frame_failure_propagation (e : Endian) (be : Backend)
    (vohp : video_output_handler_t) (f : AVFrame) (asf : PVideoFrame) (mem : Memory)
    (bg : BackgroundFn) (mf : FrameFn)
    (hbg : vohp.private_handler.make_black_background = some bg)
    (hmf : vohp.private_handler.make_frame = some mf) :
    ∃ r, make_frame e be vohp f asf mem = some r
      ∧ r.ret ≠ 0
      ∧ ((¬ needs_rebuild vohp f ∨ be.sws_getCachedContext (rebuild_request vohp f) ≠ none) →
          ∃ pre call, r.log = pre ++ [Event.frame_routine mf, Event.scale call]
            ∧ ((be.sws_scale call).1 ≤ 0 → r.ret = -1)
            ∧ (0 < (be.sws_scale call).1 → r.ret = (be.sws_scale call).1)) := by
  by_cases havail : ¬ needs_rebuild vohp f
      ∨ be.sws_getCachedContext (rebuild_request vohp f) ≠ none
  · obtain ⟨v, pre, hv, hprof, _⟩ := make_frame_available e be vohp f asf mem havail
    rw [hv, make_frame_tail_eq e be v _ asf mem pre bg mf (by rw [hprof]; exact hbg)
      (by rw [hprof]; exact hmf)]
    have hres := frame_routine_result be mf v.scaler.sws_ctx
      { f with format := avoid_yuv_scale_conversion f.format } asf (bg.call e asf mem)
    refine ⟨_, rfl, ?_, fun _ => ⟨pre ++ [Event.black_background bg asf],
      (mf.call be v.scaler.sws_ctx { f with format := avoid_yuv_scale_conversion f.format }
        asf (bg.call e asf mem)).call, ?_, ?_, ?_⟩⟩
    · show (mf.call be v.scaler.sws_ctx _ asf (bg.call e asf mem)).ret ≠ 0
      rw [hres.1]
      split <;> omega
    · simp
    · intro hle
      show (mf.call be v.scaler.sws_ctx _ asf (bg.call e asf mem)).ret = -1
      rw [hres.1, if_neg (by omega)]
    · intro hpos
      show (mf.call be v.scaler.sws_ctx _ asf (bg.call e asf mem)).ret = _
      rw [hres.1, if_pos hpos]
  · push_neg at havail
    rw [make_frame_fail e be vohp f asf mem havail.1 havail.2]
    refine ⟨_, rfl, ?_, fun h => ?_⟩
    · show (-1 : Int) ≠ 0
      decide
    · rcases h with h | h
      · exact absurd havail.1 h
      · exact absurd havail.2 h

/-- C7 at concrete inputs on the negotiated planar handler: with the steady backend a
1920 by 1080 frame returns the 1080 rows the backend reports, with the stalled backend
(count 0) it returns -1. -/
theorem make_frame_failure_propagation_witness :
    negotiated_handler.private_handler.make_black_background
        = some BackgroundFn.make_black_background_yuv420p
    ∧ negotiated_handler.private_handler.make_frame = some FrameFn.make_frame_yuv420p
    ∧ Option.map MakeFrameResult.ret
        (make_frame Endian.little steady_backend negotiated_handler
          (plain_frame 1920 1080 AV_PIX_FMT_YUV420P) small_planar_frame (fun _ => 0))
        = some 1080
    ∧ Option.map MakeFrameResult.ret
        (make_frame Endian.little stalled_backend negotiated_handler
          (plain_frame 1920 1080 AV_PIX_FMT_YUV420P) small_planar_frame (fun _ => 0))
        = some (-1)
    ∧ ∃ r, make_frame Endian.little stalled_backend negotiated_handler
              (plain_frame 1920 1080 AV_PIX_FMT_YUV420P) small_planar_frame (fun _ => 0)
            = some r
        ∧ r.ret ≠ 0
        ∧ ((¬ needs_rebuild negotiated_handler (plain_frame 1920 1080 AV_PIX_FMT_YUV420P)
              ∨ stalled_backend.sws_getCachedContext
                  (rebuild_request negotiated_handler
                    (plain_frame 1920 1080 AV_PIX_FMT_YUV420P)) ≠ none) →
            ∃ pre call, r.log
                = pre ++ [Event.frame_routine FrameFn.make_frame_yuv420p, Event.scale call]
              ∧ ((stalled_backend.sws_scale call).1 ≤ 0 → r.ret = -1)
              ∧ (0 < (stalled_backend.sws_scale call).1
                  → r.ret = (stalled_backend.sws_scale call).1)) :=
  ⟨rfl, rfl, by decide, by decide,
    make_frame_failure_propagation Endian.little stalled_backend negotiated_handler
      (plain_frame 1920 1080 AV_PIX_FMT_YUV420P) small_planar_frame (fun _ => 0)
      BackgroundFn.make_black_background_yuv420p FrameFn.make_frame_yuv420p rfl rfl⟩

/-! ## C8: failure of the context request -/

/-- C8. Whenever `make_frame` needs a rebuild and the context request it issues returns
no handle, the call returns -1, its only step is that request (neither the black
background routine nor the frame routine runs), the memory is unchanged, and the
recorded `input_width`, `input_height`, `input_pixel_format` and `enabled` are
unchanged. -/
theorem make_frame_context_failure (e : Endian) (be : Backend)
    (vohp : video_output_handler_t) (f : AVFrame) (asf : PVideoFrame) (mem : Memory)
    (hneed : needs_rebuild vohp f)
    (hfail : be.sws_getCachedContext (rebuild_request vohp f) = none) :
    ∃ r, make_frame e be vohp f asf mem = some r
      ∧ r.ret = -1
      ∧ r.log = [Event.context_request (rebuild_request vohp f)]
      ∧ r.mem = mem
      ∧ r.vohp.scaler.input_width = vohp.scaler.input_width
      ∧ r.vohp.scaler.input_height = vohp.scaler.input_height
      ∧ r.vohp.scaler.input_pixel_format = vohp.scaler.input_pixel_format
      ∧ r.vohp.scaler.enabled = vohp.scaler.enabled := by
  rw [make_frame_fail e be vohp f asf mem hneed hfail]
  exact ⟨_, rfl, rfl, rfl, rfl, rfl, rfl, rfl, rfl⟩

/-- C8 at a concrete input: the negotiated planar handler, a 1920 by 1080 frame and the
backend whose context request fails. -/
theorem make_frame_context_failure_witness :
    needs_rebuild negotiated_handler (plain_frame 1920 1080 AV_PIX_FMT_YUV420P)
    ∧ failing_backend.sws_getCachedContext
        (rebuild_request negotiated_handler (plain_frame 1920 1080 AV_PIX_FMT_YUV420P)) = none
    ∧ ∃ r, make_frame Endian.little failing_backend negotiated_handler
              (plain_frame 1920 1080 AV_PIX_FMT_YUV420P) small_planar_frame (fun _ => 0xFF)
            = some r
        ∧ r.ret = -1
        ∧ r.log = [Event.context_request
            (rebuild_request negotiated_handler (plain_frame 1920 1080 AV_PIX_FMT_YUV420P))]
        ∧ r.mem = (fun _ => 0xFF)
        ∧ r.vohp.scaler.input_width = negotiated_handler.scaler.input_width
        ∧ r.vohp.scaler.input_height = negotiated_handler.scaler.input_height
        ∧ r.vohp.scaler.input_pixel_format = negotiated_handler.scaler.input_pixel_format
        ∧ r.vohp.scaler.enabled = negotiated_handler.scaler.enabled :=
  ⟨Or.inl rfl, rfl,
    make_frame_context_failure Endian.little failing_backend negotiated_handler
      (plain_frame 1920 1080 AV_PIX_FMT_YUV420P) small_planar_frame (fun _ => 0xFF)
      (Or.inl rfl) rfl⟩

/-! ## C9: the `enabled` flag -/

/-- C9 as stated fails. On the negotiated planar handler (output YUV420P) a first
1920 by 1080 YUV420P frame causes a successful rebuild; the normalized input format
equals the output format, yet `enabled` is 0 after the call. -/
theorem make_frame_enabled_flag_counterexample :
    ∃ r, make_frame Endian.little steady_backend negotiated_handler
            (plain_frame 1920 1080 AV_PIX_FMT_YUV420P) small_planar_frame (fun _ => 0)
          = some r
      ∧ context_requests r.log = 1
      ∧ r.vohp.scaler.sws_ctx = some 1
      ∧ avoid_yuv_scale_conversion (plain_frame 1920 1080 AV_PIX_FMT_YUV420P).format
          = r.vohp.scaler.output_pixel_format
      ∧ r.vohp.scaler.enabled = 0
      ∧ ¬ (r.vohp.scaler.enabled ≠ 0 ↔
            avoid_yuv_scale_conversion (plain_frame 1920 1080 AV_PIX_FMT_YUV420P).format
              = r.vohp.scaler.output_pixel_format) :=
  ⟨_, rfl, by decide, rfl, by decide, rfl, by decide⟩

/-- C9 amended. After every successful rebuild of the conversion context in
`make_frame` the field `enabled` is 1 when the normalized input pixel format differs
from the output pixel format and 0 when they are equal; so it is true if and only if
the two formats differ. -/
theorem make_frame_enabled_flag (e : Endian) (be : Backend)
    (vohp : video_output_handler_t) (f : AVFrame) (asf : PVideoFrame) (mem : Memory)
    (bg : BackgroundFn) (mf : FrameFn)
    (hbg : vohp.private_handler.make_black_background = some bg)
    (hmf : vohp.private_handler.make_frame = some mf)
    (hneed : needs_rebuild vohp f)
    (hsucc : be.sws_getCachedContext (rebuild_request vohp f) ≠ none) :
    ∃ r, make_frame e be vohp f asf mem = some r
      ∧ r.vohp.scaler.output_pixel_format = vohp.scaler.output_pixel_format
      ∧ r.vohp.scaler.enabled
          = (if avoid_yuv_scale_conversion f.format ≠ r.vohp.scaler.output_pixel_format
              then 1 else 0)
      ∧ (r.vohp.scaler.enabled ≠ 0 ↔
          avoid_yuv_scale_conversion f.format ≠ r.vohp.scaler.output_pixel_format) := by
  rw [make_frame_rebuild e be vohp f asf mem hneed hsucc,
    make_frame_tail_eq e be _ _ asf mem _ bg mf (by exact hbg) (by exact hmf)]
  refine ⟨_, rfl, rfl, rfl, ?_⟩
  show (rebuilt_scaler vohp.scaler f _).enabled ≠ 0 ↔
    avoid_yuv_scale_conversion f.format ≠ (rebuilt_scaler vohp.scaler f _).output_pixel_format
  unfold rebuilt_scaler
  simp only []
  split <;> simp_all

/-- C9 amended, at a concrete input: an NV12 frame on the negotiated planar handler
leaves `enabled` equal to 1, the formats NV12 and YUV420P being different. -/
theorem make_frame_enabled_flag_witness :
    negotiated_handler.private_handler.make_black_background
        = some BackgroundFn.make_black_background_yuv420p
    ∧ negotiated_handler.private_handler.make_frame = some FrameFn.make_frame_yuv420p
    ∧ needs_rebuild negotiated_handler (plain_frame 1920 1080 AV_PIX_FMT_NV12)
    ∧ steady_backend.sws_getCachedContext
        (rebuild_request negotiated_handler (plain_frame 1920 1080 AV_PIX_FMT_NV12)) ≠ none
    ∧ Option.map (fun r => r.vohp.scaler.enabled)
        (make_frame Endian.little steady_backend negotiated_handler
          (plain_frame 1920 1080 AV_PIX_FMT_NV12) small_planar_frame (fun _ => 0)) = some 1
    ∧ ∃ r, make_frame Endian.little steady_backend negotiated_handler
              (plain_frame 1920 1080 AV_PIX_FMT_NV12) small_planar_frame (fun _ => 0)
            = some r
        ∧ r.vohp.scaler.output_pixel_format = negotiated_handler.scaler.output_pixel_format
        ∧ r.vohp.scaler.enabled
            = (if avoid_yuv_scale_conversion (plain_frame 1920 1080 AV_PIX_FMT_NV12).format
                  ≠ r.vohp.scaler.output_pixel_format then 1 else 0)
        ∧ (r.vohp.scaler.enabled ≠ 0 ↔
            avoid_yuv_scale_conversion (plain_frame 1920 1080 AV_PIX_FMT_NV12).format
              ≠ r.vohp.scaler.output_pixel_format) :=
  ⟨rfl, rfl, Or.inl rfl, by decide, by decide,
    make_frame_enabled_flag Endian.little steady_backend negotiated_handler
      (plain_frame 1920 1080 AV_PIX_FMT_NV12) small_planar_frame (fun _ => 0)
      BackgroundFn.make_black_background_yuv420p FrameFn.make_frame_yuv420p rfl rfl
      (Or.inl rfl) (by decide)⟩

/-! ## C10: the fill precedes the conversion -/

/-- The arguments every frame routine hands to the backend that do not depend on the
profile: the handle, the source planes, the slice start and the slice height. -/
theorem frame_routine_call (be : Backend) (mf : FrameFn) (ctx : Option Handle)
    (f : AVFrame) (asf : PVideoFrame) (mem : Memory) :
    (mf.call be ctx f asf mem).call.c = ctx
    ∧ (mf.call be ctx f asf mem).call.srcSlice = f.data
    ∧ (mf.call be ctx f asf mem).call.srcStride = f.linesize
    ∧ (mf.call be ctx f asf mem).call.srcSliceY = 0
    ∧ (mf.call be ctx f asf mem).call.srcSliceH = f.height := by
  cases mf <;> exact ⟨rfl, rfl, rfl, rfl, rfl⟩

/-- The last three lines complete only when both function pointers are set. -/
theorem make_frame_tail_some (e : Endian) (be : Backend) (vohp : video_output_handler_t)
    (f : AVFrame) (asf : PVideoFrame) (mem : Memory) (log : List Event)
    (r : MakeFrameResult) (h : make_frame_tail e be vohp f asf mem log = some r) :
    ∃ bg mf, vohp.private_handler.make_black_background = some bg
      ∧ vohp.private_handler.make_frame = some mf := by
  unfold make_frame_tail at h
  cases hbg : vohp.private_handler.make_black_background with
  | none => rw [hbg] at h; exact absurd h (by simp)
  | some bg =>
      cases hmf : vohp.private_handler.make_frame with
      | none => rw [hbg, hmf] at h; exact absurd h (by simp)
      | some mf => exact ⟨bg, mf, rfl, rfl⟩

/-- The complete description of one `make_frame` call with a profile selected, by the
three ways through the function: the context request fails, the context is rebuilt, or
the cache is fresh. -/
theorem make_frame_shape (e : Endian) (be : Backend) (vohp : video_output_handler_t)
    (f : AVFrame) (asf : PVideoFrame) (mem : Memory) (bg : BackgroundFn) (mf : FrameFn)
    (hbg : vohp.private_handler.make_black_background = some bg)
    (hmf : vohp.private_handler.make_frame = some mf) :
    ∃ r, make_frame e be vohp f asf mem = some r
      ∧ r.av_frame = { f with format := avoid_yuv_scale_conversion f.format }
      ∧ r.vohp.private_handler = vohp.private_handler
      ∧ ((needs_rebuild vohp f
            ∧ be.sws_getCachedContext (rebuild_request vohp f) = none
            ∧ r.ret = -1
            ∧ r.mem = mem
            ∧ r.vohp.scaler = { vohp.scaler with sws_ctx := none }
            ∧ r.log = [Event.context_request (rebuild_request vohp f)])
        ∨ (∃ pre,
            ((needs_rebuild vohp f
                ∧ be.sws_getCachedContext (rebuild_request vohp f) ≠ none
                ∧ r.vohp.scaler = rebuilt_scaler vohp.scaler f
                    (be.sws_getCachedContext (rebuild_request vohp f))
                ∧ pre = [Event.context_request (rebuild_request vohp f)])
              ∨ (¬ needs_rebuild vohp f ∧ r.vohp.scaler = vohp.scaler ∧ pre = []))
            ∧ r.vohp.scaler.sws_ctx ≠ none
            ∧ recorded_triple r.vohp.scaler = frame_triple f
            ∧ r.log = pre ++ [Event.black_background bg asf, Event.frame_routine mf,
                Event.scale (mf.call be r.vohp.scaler.sws_ctx r.av_frame asf
                  (bg.call e asf mem)).call]
            ∧ r.ret = (mf.call be r.vohp.scaler.sws_ctx r.av_frame asf
                  (bg.call e asf mem)).ret
            ∧ r.mem = (mf.call be r.vohp.scaler.sws_ctx r.av_frame asf
                  (bg.call e asf mem)).mem)) := by
  by_cases h : needs_rebuild vohp f
  · by_cases hs : be.sws_getCachedContext (rebuild_request vohp f) = none
    · rw [make_frame_fail e be vohp f asf mem h hs]
      exact ⟨_, rfl, rfl, rfl, Or.inl ⟨h, hs, rfl, rfl, rfl, rfl⟩⟩
    · rw [make_frame_rebuild e be vohp f asf mem h hs,
        make_frame_tail_eq e be _ _ asf mem _ bg mf (by exact hbg) (by exact hmf)]
      exact ⟨_, rfl, rfl, rfl, Or.inr ⟨_, Or.inl ⟨h, hs, rfl, rfl⟩, hs, rfl, rfl, rfl, rfl⟩⟩
  · rw [make_frame_hit e be vohp f asf mem h,
      make_frame_tail_eq e be _ _ asf mem _ bg mf (by exact hbg) (by exact hmf)]
    have h' := h
    unfold needs_rebuild at h'
    push_neg at h'
    exact ⟨_, rfl, rfl, rfl, Or.inr ⟨_, Or.inr ⟨h, rfl, rfl⟩, h'.1, h'.2, rfl, rfl, rfl⟩⟩

/-! ## C11: no resolution change -/

/-- C11. With a profile selected, every `make_frame` call completes, and every context
request it issues has source and destination width equal to the width of the frame,
source and destination height equal to the height of the frame, source format the
normalized format of the frame, destination format `scaler.output_pixel_format` and
flags `scaler.flags`; every scale call it makes starts at row 0 and covers the full
height of the frame. -/
theorem make_frame_no_resolution_change (e : Endian) (be : Backend)
    (vohp : video_output_handler_t) (f : AVFrame) (asf : PVideoFrame) (mem : Memory)
    (bg : BackgroundFn) (mf : FrameFn)
    (hbg : vohp.private_handler.make_black_background = some bg)
    (hmf : vohp.private_handler.make_frame = some mf) :
    ∃ r, make_frame e be vohp f asf mem = some r
      ∧ (∀ req, Event.context_request req ∈ r.log →
          req.srcW = f.width ∧ req.dstW = f.width
          ∧ req.srcH = f.height ∧ req.dstH = f.height
          ∧ req.srcFormat = avoid_yuv_scale_conversion f.format
          ∧ req.dstFormat = vohp.scaler.output_pixel_format
          ∧ req.flags = vohp.scaler.flags)
      ∧ (∀ call, Event.scale call ∈ r.log →
          call.srcSliceY = 0 ∧ call.srcSliceH = f.height) := by
  obtain ⟨r, hr, hfr, _, hcase⟩ := make_frame_shape e be vohp f asf mem bg mf hbg hmf
  refine ⟨r, hr, ?_, ?_⟩
  · intro req hreq
    have hreq' : req = rebuild_request vohp f := by
      rcases hcase with ⟨_, _, _, _, _, hlog⟩ | ⟨pre, hpre, _, _, hlog, _, _⟩
      · rw [hlog] at hreq
        simpa using hreq
      · rw [hlog] at hreq
        rcases hpre with ⟨_, _, _, hp⟩ | ⟨_, _, hp⟩
        · rw [hp] at hreq
          simpa using hreq
        · rw [hp] at hreq
          simp at hreq
    rw [hreq']
    exact ⟨rfl, rfl, rfl, rfl, rfl, rfl, rfl⟩
  · intro call hcall
    rcases hcase with ⟨_, _, _, _, _, hlog⟩ | ⟨pre, hpre, _, _, hlog, _, _⟩
    · rw [hlog] at hcall
      simp at hcall
    · have hc := frame_routine_call be mf r.vohp.scaler.sws_ctx r.av_frame asf
        (bg.call e asf mem)
      rw [hlog] at hcall
      have hcall' : call = (mf.call be r.vohp.scaler.sws_ctx r.av_frame asf
          (bg.call e asf mem)).call := by
        rcases hpre with ⟨_, _, _, hp⟩ | ⟨_, _, hp⟩
        · rw [hp] at hcall
          simpa using hcall
        · rw [hp] at hcall
          simpa using hcall
      rw [hcall', hc.2.2.2.1, hc.2.2.2.2, hfr]
      exact ⟨rfl, rfl⟩

/-- C11 at a concrete input: a first 1920 by 1080 YUVJ420P frame on the negotiated
planar handler with the steady backend. -/
theorem make_frame_no_resolution_change_witness :
    negotiated_handler.private_handler.make_black_background
        = some BackgroundFn.make_black_background_yuv420p
    ∧ negotiated_handler.private_handler.make_frame = some FrameFn.make_frame_yuv420p
    ∧ ∃ r, make_frame Endian.little steady_backend negotiated_handler
              (plain_frame 1920 1080 AV_PIX_FMT_YUVJ420P) small_planar_frame (fun _ => 0)
            = some r
        ∧ (∀ req, Event.context_request req ∈ r.log →
            req.srcW = (plain_frame 1920 1080 AV_PIX_FMT_YUVJ420P).width
            ∧ req.dstW = (plain_frame 1920 1080 AV_PIX_FMT_YUVJ420P).width
            ∧ req.srcH = (plain_frame 1920 1080 AV_PIX_FMT_YUVJ420P).height
            ∧ req.dstH = (plain_frame 1920 1080 AV_PIX_FMT_YUVJ420P).height
            ∧ req.srcFormat
                = avoid_yuv_scale_conversion (plain_frame 1920 1080 AV_PIX_FMT_YUVJ420P).format
            ∧ req.dstFormat = negotiated_handler.scaler.output_pixel_format
            ∧ req.flags = negotiated_handler.scaler.flags)
        ∧ (∀ call, Event.scale call ∈ r.log →
            call.srcSliceY = 0
            ∧ call.srcSliceH = (plain_frame 1920 1080 AV_PIX_FMT_YUVJ420P).height) :=
  ⟨rfl, rfl,
    make_frame_no_resolution_change Endian.little steady_backend negotiated_handler
      (plain_frame 1920 1080 AV_PIX_FMT_YUVJ420P) small_planar_frame (fun _ => 0)
      BackgroundFn.make_black_background_yuv420p FrameFn.make_frame_yuv420p rfl rfl⟩

/-! ## C12: the cache invariant at use -/

/-- C12. With a profile selected, every `make_frame` call completes, and whenever it
reaches the backend scale call of the frame routine the handle passed is not null, is
the handle held by the scaler, and the recorded `input_width`, `input_height` and
`input_pixel_format` are the width, the height and the normalized format of the
current frame. A fresh cache is the only way to reach the frame routine without a
context request. -/
theorem make_frame_cache_invariant_at_use (e : Endian) (be : Backend)
    (vohp : video_output_handler_t) (f : AVFrame) (asf : PVideoFrame) (mem : Memory)
    (bg : BackgroundFn) (mf : FrameFn)
    (hbg : vohp.private_handler.make_black_background = some bg)
    (hmf : vohp.private_handler.make_frame = some mf) :
    ∃ r, make_frame e be vohp f asf mem = some r
      ∧ (∀ call, Event.scale call ∈ r.log →
          call.c ≠ none
          ∧ call.c = r.vohp.scaler.sws_ctx
          ∧ r.vohp.scaler.input_width = f.width
          ∧ r.vohp.scaler.input_height = f.height
          ∧ r.vohp.scaler.input_pixel_format = avoid_yuv_scale_conversion f.format
          ∧ (context_requests r.log = 0 →
              vohp.scaler.sws_ctx ≠ none ∧ recorded_triple vohp.scaler = frame_triple f)) := by
  obtain ⟨r, hr, hfr, _, hcase⟩ := make_frame_shape e be vohp f asf mem bg mf hbg hmf
  refine ⟨r, hr, ?_⟩
  intro call hcall
  rcases hcase with ⟨_, _, _, _, _, hlog⟩ | ⟨pre, hpre, hctx, htrip, hlog, _, _⟩
  · rw [hlog] at hcall
    simp at hcall
  · have hc := frame_routine_call be mf r.vohp.scaler.sws_ctx r.av_frame asf
      (bg.call e asf mem)
    have hcall' : call = (mf.call be r.vohp.scaler.sws_ctx r.av_frame asf
        (bg.call e asf mem)).call := by
      rw [hlog] at hcall
      rcases hpre with ⟨_, _, _, hp⟩ | ⟨_, _, hp⟩
      · rw [hp] at hcall
        simpa using hcall
      · rw [hp] at hcall
        simpa using hcall
    have htrip' := htrip
    unfold recorded_triple frame_triple at htrip'
    simp only [Prod.mk.injEq] at htrip'
    refine ⟨?_, ?_, htrip'.1, htrip'.2.1, htrip'.2.2, ?_⟩
    · rw [hcall', hc.1]
      exact hctx
    · rw [hcall', hc.1]
    · intro hzero
      rcases hpre with ⟨_, _, _, hp⟩ | ⟨hn, _, _⟩
      · rw [hlog, hp] at hzero
        simp [context_requests, Event.is_context_request] at hzero
      · unfold needs_rebuild at hn
        push_neg at hn
        exact hn

/-- C12 at a concrete input: a 1280 by 720 frame on the warm handler, whose recorded
triple is that of a 1920 by 1080 frame. -/
theorem make_frame_cache_invariant_at_use_witness :
    warm_handler.private_handler.make_black_background
        = some BackgroundFn.make_black_background_yuv420p
    ∧ warm_handler.private_handler.make_frame = some FrameFn.make_frame_yuv420p
    ∧ ∃ r, make_frame Endian.little steady_backend warm_handler
              (plain_frame 1280 720 AV_PIX_FMT_YUV420P) small_planar_frame (fun _ => 0)
            = some r
        ∧ (∀ call, Event.scale call ∈ r.log →
            call.c ≠ none
            ∧ call.c = r.vohp.scaler.sws_ctx
            ∧ r.vohp.scaler.input_width = (plain_frame 1280 720 AV_PIX_FMT_YUV420P).width
            ∧ r.vohp.scaler.input_height = (plain_frame 1280 720 AV_PIX_FMT_YUV420P).height
            ∧ r.vohp.scaler.input_pixel_format
                = avoid_yuv_scale_conversion (plain_frame 1280 720 AV_PIX_FMT_YUV420P).format
            ∧ (context_requests r.log = 0 →
                warm_handler.scaler.sws_ctx ≠ none
                ∧ recorded_triple warm_handler.scaler
                    = frame_triple (plain_frame 1280 720 AV_PIX_FMT_YUV420P))) :=
  ⟨rfl, rfl,
    make_frame_cache_invariant_at_use Endian.little steady_backend warm_handler
      (plain_frame 1280 720 AV_PIX_FMT_YUV420P) small_planar_frame (fun _ => 0)
      BackgroundFn.make_black_background_yuv420p FrameFn.make_frame_yuv420p rfl rfl⟩

/-! ## C13: the range hack touches exactly two formats -/

/-- C13. `avoid_yuv_scale_conversion` maps YUVJ420P to YUV420P and YUVJ422P to
YUV422P, and returns every other pixel format unchanged, the sentinel
`AV_PIX_FMT_NONE` and the full range format YUVJ444P among them. -/
theorem avoid_yuv_scale_conversion_exact :
    avoid_yuv_scale_conversion AV_PIX_FMT_YUVJ420P = AV_PIX_FMT_YUV420P
    ∧ avoid_yuv_scale_conversion AV_PIX_FMT_YUVJ422P = AV_PIX_FMT_YUV422P
    ∧ avoid_yuv_scale_conversion AV_PIX_FMT_NONE = AV_PIX_FMT_NONE
    ∧ avoid_yuv_scale_conversion AV_PIX_FMT_YUVJ444P = AV_PIX_FMT_YUVJ444P
    ∧ (∀ f : AVPixelFormat, f ≠ AV_PIX_FMT_YUVJ420P → f ≠ AV_PIX_FMT_YUVJ422P →
        avoid_yuv_scale_conversion f = f) := by
  refine ⟨by decide, by decide, by decide, by decide, ?_⟩
  intro f h1 h2
  rw [avoid_cases, if_neg h1, if_neg h2]

/-- C13 at concrete inputs: NV12 and an unnamed member of the enumeration are returned
unchanged. -/
theorem avoid_yuv_scale_conversion_exact_witness :
    AV_PIX_FMT_NV12 ≠ AV_PIX_FMT_YUVJ420P ∧ AV_PIX_FMT_NV12 ≠ AV_PIX_FMT_YUVJ422P
    ∧ avoid_yuv_scale_conversion AV_PIX_FMT_NV12 = AV_PIX_FMT_NV12
    ∧ avoid_yuv_scale_conversion (AVPixelFormat.other 64) = AVPixelFormat.other 64 :=
  ⟨by decide, by decide,
    avoid_yuv_scale_conversion_exact.2.2.2.2 AV_PIX_FMT_NV12 (by decide) (by decide),
    avoid_yuv_scale_conversion_exact.2.2.2.2 (AVPixelFormat.other 64) (by decide) (by decide)⟩

/-! ## Lemmas on calls that follow one another -/

/-- A call that returns a value other than -1 had both function pointers set, left a
handle in the scaler and recorded the triple of its frame, without changing the
private handler. -/
theorem make_frame_of_success (e : Endian) (be : Backend) (vohp : video_output_handler_t)
    (f : AVFrame) (asf : PVideoFrame) (mem : Memory) (r : MakeFrameResult)
    (h : make_frame e be vohp f asf mem = some r) (hret : r.ret ≠ -1) :
    ∃ bg mf, r.vohp.private_handler.make_black_background = some bg
      ∧ r.vohp.private_handler.make_frame = some mf
      ∧ r.vohp.scaler.sws_ctx ≠ none
      ∧ recorded_triple r.vohp.scaler = frame_triple f := by
  have hprof : ∃ bg mf, vohp.private_handler.make_black_background = some bg
      ∧ vohp.private_handler.make_frame = some mf := by
    by_cases hn : needs_rebuild vohp f
    · by_cases hs : be.sws_getCachedContext (rebuild_request vohp f) = none
      · rw [make_frame_fail e be vohp f asf mem hn hs] at h
        have hr := Option.some.inj h
        rw [← hr] at hret
        exact absurd rfl hret
      · rw [make_frame_rebuild e be vohp f asf mem hn hs] at h
        have ht := make_frame_tail_some e be _ _ asf mem _ r h
        exact ht
    · rw [make_frame_hit e be vohp f asf mem hn] at h
      exact make_frame_tail_some e be _ _ asf mem _ r h
  obtain ⟨bg, mf, hbg, hmf⟩ := hprof
  obtain ⟨r', hr', _, hph, hcase⟩ := make_frame_shape e be vohp f asf mem bg mf hbg hmf
  rw [h] at hr'
  have hrr := Option.some.inj hr'
  subst hrr
  refine ⟨bg, mf, by rw [hph]; exact hbg, by rw [hph]; exact hmf, ?_⟩
  rcases hcase with ⟨_, _, hm1, _⟩ | ⟨_, _, hctx, htrip, _⟩
  · exact absurd hm1 hret
  · exact ⟨hctx, htrip⟩

/-- A sequence of calls with a profile selected always completes, and when the handle
held at the start is null or satisfies `S`, and every handle any of the backends of the
sequence can hand out satisfies `S`, then every handle passed to a backend scale call
satisfies `S`. -/
theorem make_frames_handles (e : Endian) (bg : BackgroundFn) (mf : FrameFn)
    (S : Option Handle → Prop) (cs : List Call) :
    ∀ (vohp : video_output_handler_t) (mem : Memory),
      vohp.private_handler.make_black_background = some bg →
      vohp.private_handler.make_frame = some mf →
      (vohp.scaler.sws_ctx = none ∨ S vohp.scaler.sws_ctx) →
      (∀ c ∈ cs, ∀ req, S (c.be.sws_getCachedContext req)) →
      ∃ rs, make_frames e vohp mem cs = some rs
        ∧ ∀ r ∈ rs, ∀ call, Event.scale call ∈ r.log → S call.c := by
  induction cs with
  | nil =>
      intro vohp mem _ _ _ _
      exact ⟨[], rfl, fun r hr => absurd hr (List.not_mem_nil _)⟩
  | cons c cs ih =>
      intro vohp mem hbg hmf hinv hS
      obtain ⟨r, hr, _, hph, hcase⟩ :=
        make_frame_shape e c.be vohp c.av_frame c.as_frame mem bg mf hbg hmf
      have hSc := hS c (List.mem_cons_self _ _)
      have hinv' : r.vohp.scaler.sws_ctx = none ∨ S r.vohp.scaler.sws_ctx := by
        rcases hcase with ⟨_, _, _, _, hsc, _⟩ | ⟨pre, hpre, hctx, _, _, _, _⟩
        · left
          rw [hsc]
        · right
          rcases hpre with ⟨_, _, hsc, _⟩ | ⟨_, hsc, _⟩
          · rw [hsc]
            exact hSc _
          · rw [hsc] at hctx ⊢
            rcases hinv with h0 | h0
            · exact absurd h0 hctx
            · exact h0
      obtain ⟨rs, hrs, hall⟩ := ih r.vohp r.mem (by rw [hph]; exact hbg)
        (by rw [hph]; exact hmf) hinv' (fun c' hc' => hS c' (List.mem_cons_of_mem _ hc'))
      refine ⟨r :: rs, ?_, ?_⟩
      · simp only [make_frames, hr, hrs]
      · intro r' hr' call hcall
        rcases List.mem_cons.mp hr' with heq | hmem
        · subst heq
          rcases hcase with ⟨_, _, _, _, _, hlog⟩ | ⟨pre, hpre, hctx, _, hlog, _, _⟩
          · rw [hlog] at hcall
            simp at hcall
          · have hc := frame_routine_call c.be mf r'.vohp.scaler.sws_ctx r'.av_frame
              c.as_frame (bg.call e c.as_frame mem)
            have hcall' : call = (mf.call c.be r'.vohp.scaler.sws_ctx r'.av_frame c.as_frame
                (bg.call e c.as_frame mem)).call := by
              rw [hlog] at hcall
              rcases hpre with ⟨_, _, _, hp⟩ | ⟨_, _, hp⟩
              · rw [hp] at hcall
                simpa using hcall
              · rw [hp] at hcall
                simpa using hcall
            rw [hcall', hc.1]
            rcases hinv' with h0 | h0
            · exact absurd h0 hctx
            · exact h0
        · exact hall r' hmem call hcall

/-! ## C14: the cache is keyed on the normalized format -/

/-- C14. If a `make_frame` call succeeded (returned a positive row count) and the next
call on the handler it left has a frame of the same width and height whose format
normalizes to the same format, then the next call completes without any backend
context request. -/
theorem make_frame_cache_keyed_on_normalized_format (e : Endian) (be1 be2 : Backend)
    (vohp : video_output_handler_t) (f1 f2 : AVFrame) (asf1 asf2 : PVideoFrame)
    (mem : Memory) (r1 : MakeFrameResult)
    (h1 : make_frame e be1 vohp f1 asf1 mem = some r1)
    (hok : 0 < r1.ret)
    (hw : f2.width = f1.width) (hh : f2.height = f1.height)
    (hfmt : avoid_yuv_scale_conversion f2.format = avoid_yuv_scale_conversion f1.format) :
    ∃ r2, make_frame e be2 r1.vohp f2 asf2 r1.mem = some r2
      ∧ context_requests r2.log = 0
      ∧ (∀ req, Event.context_request req ∉ r2.log) := by
  obtain ⟨bg, mf, hbg, hmf, hctx, htrip⟩ :=
    make_frame_of_success e be1 vohp f1 asf1 mem r1 h1 (by omega)
  have hsame : frame_triple f2 = frame_triple f1 := by
    unfold frame_triple
    rw [hw, hh, hfmt]
  have hn : ¬ needs_rebuild r1.vohp f2 := by
    unfold needs_rebuild
    rw [hsame]
    push_neg
    exact ⟨hctx, htrip⟩
  rw [make_frame_hit e be2 r1.vohp f2 asf2 r1.mem hn,
    make_frame_tail_eq e be2 _ _ asf2 r1.mem _ bg mf hbg hmf]
  refine ⟨_, rfl, ?_, ?_⟩
  · simp [context_requests, Event.is_context_request]
  · intro req hreq
    simp at hreq

/-- C14 at a concrete input: a YUV420P frame and then a YUVJ420P frame of the same
size on the negotiated planar handler; the second call is given the backend whose
context request fails and still returns the 1080 rows. -/
theorem make_frame_cache_keyed_on_normalized_format_witness :
    ∃ r1, make_frame Endian.little steady_backend negotiated_handler
            (plain_frame 1920 1080 AV_PIX_FMT_YUV420P) small_planar_frame (fun _ => 0)
          = some r1
      ∧ 0 < r1.ret
      ∧ avoid_yuv_scale_conversion (plain_frame 1920 1080 AV_PIX_FMT_YUVJ420P).format
          = avoid_yuv_scale_conversion (plain_frame 1920 1080 AV_PIX_FMT_YUV420P).format
      ∧ ∃ r2, make_frame Endian.little failing_backend r1.vohp
                (plain_frame 1920 1080 AV_PIX_FMT_YUVJ420P) small_planar_frame r1.mem
              = some r2
          ∧ context_requests r2.log = 0
          ∧ (∀ req, Event.context_request req ∉ r2.log) :=
  ⟨_, rfl, by decide, by decide,
    make_frame_cache_keyed_on_normalized_format Endian.little steady_backend failing_backend
      negotiated_handler (plain_frame 1920 1080 AV_PIX_FMT_YUV420P)
      (plain_frame 1920 1080 AV_PIX_FMT_YUVJ420P) small_planar_frame small_planar_frame
      (fun _ => 0) _ rfl (by decide) rfl rfl (by decide)⟩

/-! ## C15: recovery after a failed rebuild -/

/-- C15. After a `make_frame` call whose context request returned no handle the handle
field is null. The next call then issues a context request as its first step for every
frame (so also for a frame whose triple equals the recorded triple), handing the
backend a null old context. Over any sequence of later calls, every handle passed to a
backend scale call is one that a context request of those later calls returned. -/
theorem make_frame_recovery (e : Endian) (be : Backend) (vohp : video_output_handler_t)
    (f : AVFrame) (asf : PVideoFrame) (mem : Memory) (bg : BackgroundFn) (mf : FrameFn)
    (hbg : vohp.private_handler.make_black_background = some bg)
    (hmf : vohp.private_handler.make_frame = some mf)
    (hneed : needs_rebuild vohp f)
    (hfail : be.sws_getCachedContext (rebuild_request vohp f) = none) :
    ∃ r, make_frame e be vohp f asf mem = some r
      ∧ r.vohp.scaler.sws_ctx = none
      ∧ (∀ (be2 : Backend) (f2 : AVFrame) (asf2 : PVideoFrame) (mem2 : Memory),
          ∃ r2 rest, make_frame e be2 r.vohp f2 asf2 mem2 = some r2
            ∧ r2.log = Event.context_request (rebuild_request r.vohp f2) :: rest
            ∧ (rebuild_request r.vohp f2).context = none)
      ∧ (∀ cs : List Call,
          ∃ rs, make_frames e r.vohp r.mem cs = some rs
            ∧ ∀ r2 ∈ rs, ∀ call, Event.scale call ∈ r2.log →
                ∃ c ∈ cs, ∃ req, call.c = c.be.sws_getCachedContext req) := by
  rw [make_frame_fail e be vohp f asf mem hneed hfail]
  refine ⟨_, rfl, rfl, ?_, ?_⟩
  · intro be2 f2 asf2 mem2
    obtain ⟨r2, hr2, _, _, hcase⟩ :=
      make_frame_shape e be2
        { vohp with scaler := { vohp.scaler with sws_ctx := none } } f2 asf2 mem2 bg mf
        (by exact hbg) (by exact hmf)
    rcases hcase with ⟨_, _, _, _, _, hlog⟩ | ⟨pre, hpre, _, _, hlog, _, _⟩
    · exact ⟨r2, [], hr2, hlog, rfl⟩
    · rcases hpre with ⟨_, _, _, hp⟩ | ⟨hn, _, _⟩
      · rw [hp] at hlog
        exact ⟨r2, _, hr2, hlog, rfl⟩
      · exact absurd (Or.inl rfl) hn
  · intro cs
    exact make_frames_handles e bg mf
      (fun x => ∃ c ∈ cs, ∃ req, x = c.be.sws_getCachedContext req) cs
      { vohp with scaler := { vohp.scaler with sws_ctx := none } } mem
      (by exact hbg) (by exact hmf) (Or.inl rfl)
      (fun c hc req => ⟨c, hc, req, rfl⟩)

/-- C15 at a concrete input: on the warm handler (handle 7, triple of a 1920 by 1080
frame recorded) a 1280 by 720 frame meets the backend whose context request fails. -/
theorem make_frame_recovery_witness :
    warm_handler.private_handler.make_black_background
        = some BackgroundFn.make_black_background_yuv420p
    ∧ warm_handler.private_handler.make_frame = some FrameFn.make_frame_yuv420p
    ∧ needs_rebuild warm_handler (plain_frame 1280 720 AV_PIX_FMT_YUV420P)
    ∧ failing_backend.sws_getCachedContext
        (rebuild_request warm_handler (plain_frame 1280 720 AV_PIX_FMT_YUV420P)) = none
    ∧ ∃ r, make_frame Endian.little failing_backend warm_handler
              (plain_frame 1280 720 AV_PIX_FMT_YUV420P) small_planar_frame (fun _ => 0)
            = some r
        ∧ r.vohp.scaler.sws_ctx = none
        ∧ (∀ (be2 : Backend) (f2 : AVFrame) (asf2 : PVideoFrame) (mem2 : Memory),
            ∃ r2 rest, make_frame Endian.little be2 r.vohp f2 asf2 mem2 = some r2
              ∧ r2.log = Event.context_request (rebuild_request r.vohp f2) :: rest
              ∧ (rebuild_request r.vohp f2).context = none)
        ∧ (∀ cs : List Call,
            ∃ rs, make_frames Endian.little r.vohp r.mem cs = some rs
              ∧ ∀ r2 ∈ rs, ∀ call, Event.scale call ∈ r2.log →
                  ∃ c ∈ cs, ∃ req, call.c = c.be.sws_getCachedContext req) :=
  ⟨rfl, rfl, by decide, rfl,
    make_frame_recovery Endian.little failing_backend warm_handler
      (plain_frame 1280 720 AV_PIX_FMT_YUV420P) small_planar_frame (fun _ => 0)
      BackgroundFn.make_black_background_yuv420p FrameFn.make_frame_yuv420p rfl rfl
      (by decide) rfl⟩

/-! ## C16: row reversal of the BGRA profile -/

/-- C16. For every destination with pitch `p` not negative and height `h`, and every
backend output row `row` with `0 ≤ row < h` (so `h` is at least 1), the row address
computed from
the geometry of `make_frame_rgba32` is `base + p * (h - 1 - row)`, the start of buffer
row `h - 1 - row`; that row lies inside the extent `[base, base + p * h)` of the
buffer (and its start is a byte of the extent when `p` is positive). The map from
`row` to `h - 1 - row` is a bijection of `0 .. h - 1` onto itself. -/
theorem make_frame_rgba32_row_reversal (be : Backend) (sws_ctx : Option Handle)
    (av_frame : AVFrame) (as_frame : PVideoFrame) (mem : Memory) (row : Int)
    (hp : 0 ≤ as_frame.GetPitch DEFAULT)
    (h0 : 0 ≤ row) (h1 : row < as_frame.GetHeight DEFAULT) :
    dst_row_address (make_frame_rgba32 be sws_ctx av_frame as_frame mem).call row
        = as_frame.GetWritePtr DEFAULT
          + as_frame.GetPitch DEFAULT * (as_frame.GetHeight DEFAULT - 1 - row)
    ∧ (0 ≤ as_frame.GetHeight DEFAULT - 1 - row
        ∧ as_frame.GetHeight DEFAULT - 1 - row < as_frame.GetHeight DEFAULT)
    ∧ as_frame.GetWritePtr DEFAULT
        ≤ dst_row_address (make_frame_rgba32 be sws_ctx av_frame as_frame mem).call row
    ∧ dst_row_address (make_frame_rgba32 be sws_ctx av_frame as_frame mem).call row
          + as_frame.GetPitch DEFAULT
        ≤ as_frame.GetWritePtr DEFAULT
          + as_frame.GetPitch DEFAULT * as_frame.GetHeight DEFAULT
    ∧ (0 < as_frame.GetPitch DEFAULT →
        in_extent as_frame DEFAULT
          (dst_row_address (make_frame_rgba32 be sws_ctx av_frame as_frame mem).call row))
    ∧ Set.BijOn (fun r : Int => as_frame.GetHeight DEFAULT - 1 - r)
        (Set.Ico 0 (as_frame.GetHeight DEFAULT)) (Set.Ico 0 (as_frame.GetHeight DEFAULT)) := by
  have haddr : dst_row_address (make_frame_rgba32 be sws_ctx av_frame as_frame mem).call row
      = as_frame.GetWritePtr DEFAULT
        + as_frame.GetPitch DEFAULT * (as_frame.GetHeight DEFAULT - 1 - row) := by
    show as_frame.GetWritePtr DEFAULT
        + as_frame.GetPitch DEFAULT * (as_frame.GetHeight DEFAULT - 1)
        + row * (-as_frame.GetPitch DEFAULT) = _
    ring
  have hlow : 0 ≤ as_frame.GetPitch DEFAULT * (as_frame.GetHeight DEFAULT - 1 - row) :=
    Int.mul_nonneg hp (by omega)
  have hrow : 0 ≤ as_frame.GetPitch DEFAULT * row := Int.mul_nonneg hp h0
  have hexp : as_frame.GetPitch DEFAULT * (as_frame.GetHeight DEFAULT - 1 - row)
      + as_frame.GetPitch DEFAULT
      = as_frame.GetPitch DEFAULT * as_frame.GetHeight DEFAULT
        - as_frame.GetPitch DEFAULT * row := by ring
  refine ⟨haddr, ⟨by omega, by omega⟩, ?_, ?_, ?_, ?_⟩
  · rw [haddr]
    omega
  · rw [haddr]
    omega
  · intro hpos
    unfold in_extent
    rw [haddr]
    refine ⟨by omega, ?_⟩
    omega
  · refine ⟨?_, ?_, ?_⟩
    · intro r hr
      simp only [Set.mem_Ico] at hr ⊢
      omega
    · intro a _ b _ hab
      simp only at hab
      omega
    · intro r hr
      simp only [Set.mem_Ico] at hr
      refine ⟨as_frame.GetHeight DEFAULT - 1 - r, ?_, ?_⟩
      · simp only [Set.mem_Ico]
        omega
      · simp only
        omega

/-- C16 at a concrete input: a packed destination at address 200 with pitch 8 and
height 2; backend row 0 is written at address 208, the start of buffer row 1. -/
theorem make_frame_rgba32_row_reversal_witness :
    (0 : Int) ≤ (packed_frame 200 8 2).GetPitch DEFAULT
    ∧ (1 : Int) ≤ (packed_frame 200 8 2).GetHeight DEFAULT
    ∧ dst_row_address
        (make_frame_rgba32 steady_backend (some 1) (plain_frame 2 2 AV_PIX_FMT_BGRA)
          (packed_frame 200 8 2) (fun _ => 0)).call 0 = 208
    ∧ dst_row_address
        (make_frame_rgba32 steady_backend (some 1) (plain_frame 2 2 AV_PIX_FMT_BGRA)
          (packed_frame 200 8 2) (fun _ => 0)).call 0
        = (packed_frame 200 8 2).GetWritePtr DEFAULT
          + (packed_frame 200 8 2).GetPitch DEFAULT
            * ((packed_frame 200 8 2).GetHeight DEFAULT - 1 - 0) :=
  ⟨by decide, by decide, by decide,
    (make_frame_rgba32_row_reversal steady_backend (some 1) (plain_frame 2 2 AV_PIX_FMT_BGRA)
      (packed_frame 200 8 2) (fun _ => 0) 0 (by decide) (by decide) (by decide)).1⟩

/-! ## C17: renegotiation keeps the cache -/

/-- The scaler after `determine_colorspace_conversion` differs from the scaler before
at most in `output_pixel_format`; a return value 0 means both function pointers are
set. -/
theorem determine_colorspace_conversion_frame (vohp : video_output_handler_t)
    (g : AVPixelFormat) :
    (determine_colorspace_conversion vohp g).vohp.scaler
        = { vohp.scaler with
            output_pixel_format :=
              (determine_colorspace_conversion vohp g).vohp.scaler.output_pixel_format }
    ∧ (determine_colorspace_conversion vohp g).input_pixel_format
        = avoid_yuv_scale_conversion g
    ∧ ((determine_colorspace_conversion vohp g).ret = 0 →
        ∃ bg mf,
          (determine_colorspace_conversion vohp g).vohp.private_handler.make_black_background
              = some bg
          ∧ (determine_colorspace_conversion vohp g).vohp.private_handler.make_frame
              = some mf) := by
  cases g <;>
    simp [determine_colorspace_conversion, avoid_cases, conversion_table, conversion_loop]

/-- C17. `determine_colorspace_conversion` leaves `sws_ctx`, `input_width`,
`input_height`, `input_pixel_format`, `flags` and `enabled` of the scaler unchanged.
Consequently, when the handler holds a handle and a recorded triple, a `make_frame`
call that follows a successful renegotiation with a frame of that triple issues no
context request and passes the handle held before the renegotiation to the frame
routine the renegotiation selected. -/
theorem renegotiation_keeps_cache (e : Endian) (be : Backend) (vohp : video_output_handler_t)
    (g : AVPixelFormat) (f : AVFrame) (asf : PVideoFrame) (mem : Memory) (h : Handle) :
    ((determine_colorspace_conversion vohp g).vohp.scaler.sws_ctx = vohp.scaler.sws_ctx
      ∧ (determine_colorspace_conversion vohp g).vohp.scaler.input_width
          = vohp.scaler.input_width
      ∧ (determine_colorspace_conversion vohp g).vohp.scaler.input_height
          = vohp.scaler.input_height
      ∧ (determine_colorspace_conversion vohp g).vohp.scaler.input_pixel_format
          = vohp.scaler.input_pixel_format
      ∧ (determine_colorspace_conversion vohp g).vohp.scaler.flags = vohp.scaler.flags
      ∧ (determine_colorspace_conversion vohp g).vohp.scaler.enabled = vohp.scaler.enabled)
    ∧ (vohp.scaler.sws_ctx = some h →
        recorded_triple vohp.scaler = frame_triple f →
        (determine_colorspace_conversion vohp g).ret = 0 →
        ∃ r bg mf call,
          (determine_colorspace_conversion vohp g).vohp.private_handler.make_black_background
              = some bg
          ∧ (determine_colorspace_conversion vohp g).vohp.private_handler.make_frame
              = some mf
          ∧ make_frame e be (determine_colorspace_conversion vohp g).vohp f asf mem = some r
          ∧ r.log = [Event.black_background bg asf, Event.frame_routine mf, Event.scale call]
          ∧ call.c = some h
          ∧ r.vohp.scaler.sws_ctx = some h) := by
  obtain ⟨hsc, _, hprof⟩ := determine_colorspace_conversion_frame vohp g
  have hfields :
      (determine_colorspace_conversion vohp g).vohp.scaler.sws_ctx = vohp.scaler.sws_ctx
      ∧ (determine_colorspace_conversion vohp g).vohp.scaler.input_width
          = vohp.scaler.input_width
      ∧ (determine_colorspace_conversion vohp g).vohp.scaler.input_height
          = vohp.scaler.input_height
      ∧ (determine_colorspace_conversion vohp g).vohp.scaler.input_pixel_format
          = vohp.scaler.input_pixel_format
      ∧ (determine_colorspace_conversion vohp g).vohp.scaler.flags = vohp.scaler.flags
      ∧ (determine_colorspace_conversion vohp g).vohp.scaler.enabled
          = vohp.scaler.enabled := by
    rw [hsc]
    exact ⟨rfl, rfl, rfl, rfl, rfl, rfl⟩
  refine ⟨hfields, ?_⟩
  intro hctx htrip hret
  obtain ⟨bg, mf, hbg, hmf⟩ := hprof hret
  have hn : ¬ needs_rebuild (determine_colorspace_conversion vohp g).vohp f := by
    unfold needs_rebuild recorded_triple
    rw [hfields.1, hfields.2.1, hfields.2.2.1, hfields.2.2.2.1, hctx]
    push_neg
    exact ⟨by simp, htrip⟩
  rw [make_frame_hit e be _ f asf mem hn, make_frame_tail_eq e be _ _ asf mem _ bg mf hbg hmf]
  have hc := frame_routine_call be mf (determine_colorspace_conversion vohp g).vohp.scaler.sws_ctx
    { f with format := avoid_yuv_scale_conversion f.format } asf (bg.call e asf mem)
  refine ⟨_, bg, mf, _, hbg, hmf, rfl, rfl, ?_, ?_⟩
  · rw [hc.1, hfields.1, hctx]
  · show (determine_colorspace_conversion vohp g).vohp.scaler.sws_ctx = some h
    rw [hfields.1, hctx]

/-- C17 at a concrete input: the warm handler (planar output, handle 7, triple of a
1920 by 1080 YUV420P frame) is renegotiated for BGRA input, which selects the BGRA
output and routines; a 1920 by 1080 YUV420P frame then reaches `make_frame_rgba32`
with handle 7 although the backend of that call would refuse any context request. -/
theorem renegotiation_keeps_cache_witness :
    warm_handler.scaler.output_pixel_format = AV_PIX_FMT_YUV420P
    ∧ (determine_colorspace_conversion warm_handler AV_PIX_FMT_BGRA).vohp.scaler.output_pixel_format
        = AV_PIX_FMT_BGRA
    ∧ warm_handler.scaler.sws_ctx = some 7
    ∧ recorded_triple warm_handler.scaler
        = frame_triple (plain_frame 1920 1080 AV_PIX_FMT_YUV420P)
    ∧ (determine_colorspace_conversion warm_handler AV_PIX_FMT_BGRA).ret = 0
    ∧ (determine_colorspace_conversion warm_handler
          AV_PIX_FMT_BGRA).vohp.private_handler.make_frame = some FrameFn.make_frame_rgba32
    ∧ ∃ r bg mf call,
        (determine_colorspace_conversion warm_handler
            AV_PIX_FMT_BGRA).vohp.private_handler.make_black_background = some bg
        ∧ (determine_colorspace_conversion warm_handler
            AV_PIX_FMT_BGRA).vohp.private_handler.make_frame = some mf
        ∧ make_frame Endian.little failing_backend
            (determine_colorspace_conversion warm_handler AV_PIX_FMT_BGRA).vohp
            (plain_frame 1920 1080 AV_PIX_FMT_YUV420P) (packed_frame 200 8 2) (fun _ => 0)
          = some r
        ∧ r.log = [Event.black_background bg (packed_frame 200 8 2), Event.frame_routine mf,
            Event.scale call]
        ∧ call.c = some 7
        ∧ r.vohp.scaler.sws_ctx = some 7 :=
  ⟨rfl, rfl, rfl, by decide, rfl, rfl,
    (renegotiation_keeps_cache Endian.little failing_backend warm_handler AV_PIX_FMT_BGRA
      (plain_frame 1920 1080 AV_PIX_FMT_YUV420P) (packed_frame 200 8 2) (fun _ => 0) 7).2
      rfl (by decide) rfl⟩

/-! ## C18: the normalization is written back -/

/-- C18. With a profile selected, every `make_frame` call completes, on its failing
paths too, and leaves the format field of the source frame equal to its normalized
value (YUV420P for a YUVJ420P frame, YUV422P for a YUVJ422P frame) and the width, the
height, the plane pointers and the line sizes of the source frame unchanged. Likewise
`determine_colorspace_conversion` leaves `*input_pixel_format` equal to the normalized
value, whether it returns 0 or -1. -/
theorem normalization_written_back (e : Endian) (be : Backend)
    (vohp : video_output_handler_t) (f : AVFrame) (asf : PVideoFrame) (mem : Memory)
    (bg : BackgroundFn) (mf : FrameFn) (g : AVPixelFormat)
    (hbg : vohp.private_handler.make_black_background = some bg)
    (hmf : vohp.private_handler.make_frame = some mf) :
    (∃ r, make_frame e be vohp f asf mem = some r
      ∧ r.av_frame.format = avoid_yuv_scale_conversion f.format
      ∧ (f.format = AV_PIX_FMT_YUVJ420P → r.av_frame.format = AV_PIX_FMT_YUV420P)
      ∧ (f.format = AV_PIX_FMT_YUVJ422P → r.av_frame.format = AV_PIX_FMT_YUV422P)
      ∧ r.av_frame.width = f.width
      ∧ r.av_frame.height = f.height
      ∧ r.av_frame.data = f.data
      ∧ r.av_frame.linesize = f.linesize)
    ∧ (determine_colorspace_conversion vohp g).input_pixel_format
        = avoid_yuv_scale_conversion g
    ∧ ((determine_colorspace_conversion vohp g).ret = 0
        ∨ (determine_colorspace_conversion vohp g).ret = -1) := by
  obtain ⟨r, hr, hfr, _, _⟩ := make_frame_shape e be vohp f asf mem bg mf hbg hmf
  refine ⟨⟨r, hr, ?_, ?_, ?_, ?_, ?_, ?_, ?_⟩,
    (determine_colorspace_conversion_frame vohp g).2.1, ?_⟩
  · rw [hfr]
  · intro hf
    rw [hfr]
    show avoid_yuv_scale_conversion f.format = _
    rw [hf]
    decide
  · intro hf
    rw [hfr]
    show avoid_yuv_scale_conversion f.format = _
    rw [hf]
    decide
  · rw [hfr]
  · rw [hfr]
  · rw [hfr]
  · rw [hfr]
  · cases g <;>
      simp [determine_colorspace_conversion, avoid_cases, conversion_table, conversion_loop]

/-- C18 at concrete inputs: a YUVJ422P frame on the negotiated planar handler with the
backend whose context request fails (the call returns -1), and a negotiation of
YUVJ420P input. -/
theorem normalization_written_back_witness :
    negotiated_handler.private_handler.make_black_background
        = some BackgroundFn.make_black_background_yuv420p
    ∧ negotiated_handler.private_handler.make_frame = some FrameFn.make_frame_yuv420p
    ∧ Option.map MakeFrameResult.ret
        (make_frame Endian.little failing_backend negotiated_handler
          (plain_frame 1920 1080 AV_PIX_FMT_YUVJ422P) small_planar_frame (fun _ => 0))
        = some (-1)
    ∧ Option.map (fun r => r.av_frame.format)
        (make_frame Endian.little failing_backend negotiated_handler
          (plain_frame 1920 1080 AV_PIX_FMT_YUVJ422P) small_planar_frame (fun _ => 0))
        = some AV_PIX_FMT_YUV422P
    ∧ (determine_colorspace_conversion negotiated_handler AV_PIX_FMT_YUVJ420P).input_pixel_format
        = AV_PIX_FMT_YUV420P
    ∧ (∃ r, make_frame Endian.little failing_backend negotiated_handler
              (plain_frame 1920 1080 AV_PIX_FMT_YUVJ422P) small_planar_frame (fun _ => 0)
            = some r
        ∧ r.av_frame.format
            = avoid_yuv_scale_conversion (plain_frame 1920 1080 AV_PIX_FMT_YUVJ422P).format
        ∧ ((plain_frame 1920 1080 AV_PIX_FMT_YUVJ422P).format = AV_PIX_FMT_YUVJ420P →
            r.av_frame.format = AV_PIX_FMT_YUV420P)
        ∧ ((plain_frame 1920 1080 AV_PIX_FMT_YUVJ422P).format = AV_PIX_FMT_YUVJ422P →
            r.av_frame.format = AV_PIX_FMT_YUV422P)
        ∧ r.av_frame.width = (plain_frame 1920 1080 AV_PIX_FMT_YUVJ422P).width
        ∧ r.av_frame.height = (plain_frame 1920 1080 AV_PIX_FMT_YUVJ422P).height
        ∧ r.av_frame.data = (plain_frame 1920 1080 AV_PIX_FMT_YUVJ422P).data
        ∧ r.av_frame.linesize = (plain_frame 1920 1080 AV_PIX_FMT_YUVJ422P).linesize) :=
  ⟨rfl, rfl, by decide, by decide, by decide,
    (normalization_written_back Endian.little failing_backend negotiated_handler
      (plain_frame 1920 1080 AV_PIX_FMT_YUVJ422P) small_planar_frame (fun _ => 0)
      BackgroundFn.make_black_background_yuv420p FrameFn.make_frame_yuv420p
      AV_PIX_FMT_YUVJ420P rfl rfl).1⟩

/-! ## C19: sample values of the packed 4:2:2 fill -/

/-- The bytes `make_black_background_yuv422` writes on a machine with little endian
stores, when pitch times height is a multiple of 4: in every group of four bytes of the
extent the bytes at offsets 0 and 2 (luma in YUYV order) are 0x80 and the bytes at
offsets 1 and 3 (chroma) are 0x00. -/
theorem make_black_background_yuv422_little_endian_bytes (frame : PVideoFrame)
    (mem : Memory)
    (hp : 0 ≤ frame.GetPitch DEFAULT) (hh : 0 ≤ frame.GetHeight DEFAULT)
    (hdiv : 4 ∣ frame.GetPitch DEFAULT * frame.GetHeight DEFAULT)
    (k : Int) (hk0 : 0 ≤ k) (hk : 4 * k < frame.GetPitch DEFAULT * frame.GetHeight DEFAULT) :
    make_black_background_yuv422 Endian.little frame mem (frame.GetWritePtr DEFAULT + 4 * k)
        = 0x80
    ∧ make_black_background_yuv422 Endian.little frame mem
        (frame.GetWritePtr DEFAULT + 4 * k + 1) = 0x00
    ∧ make_black_background_yuv422 Endian.little frame mem
        (frame.GetWritePtr DEFAULT + 4 * k + 2) = 0x80
    ∧ make_black_background_yuv422 Endian.little frame mem
        (frame.GetWritePtr DEFAULT + 4 * k + 3) = 0x00 := by
  have hN : 0 ≤ frame.GetPitch DEFAULT * frame.GetHeight DEFAULT := Int.mul_nonneg hp hh
  have hfull : 4 * (frame.GetPitch DEFAULT * frame.GetHeight DEFAULT / 4)
      = frame.GetPitch DEFAULT * frame.GetHeight DEFAULT := Int.mul_ediv_cancel' hdiv
  have hbyte : ∀ j : Nat, j < 4 →
      make_black_background_yuv422 Endian.little frame mem
          (frame.GetWritePtr DEFAULT + 4 * k + (j : Int))
        = word_byte Endian.little 0x00800080 j := by
    intro j hj
    have hin1 : frame.GetWritePtr DEFAULT ≤ frame.GetWritePtr DEFAULT + 4 * k + (j : Int) := by
      omega
    have hin2 : frame.GetWritePtr DEFAULT + 4 * k + (j : Int)
        < frame.GetWritePtr DEFAULT
          + 4 * (frame.GetPitch DEFAULT * frame.GetHeight DEFAULT / 4) := by
      rw [hfull]
      generalize frame.GetPitch DEFAULT * frame.GetHeight DEFAULT = N at hdiv hk
      omega
    rw [make_black_background_yuv422_byte Endian.little frame mem hN _ hin1 hin2]
    have hnat := Int.toNat_of_nonneg
      (show 0 ≤ frame.GetWritePtr DEFAULT + 4 * k + (j : Int) - frame.GetWritePtr DEFAULT by
        omega)
    have hmod : (frame.GetWritePtr DEFAULT + 4 * k + (j : Int)
        - frame.GetWritePtr DEFAULT).toNat % 4 = j := by omega
    rw [hmod]
  have h0 := hbyte 0 (by decide)
  have h1 := hbyte 1 (by decide)
  have h2 := hbyte 2 (by decide)
  have h3 := hbyte 3 (by decide)
  simp only [Nat.cast_zero, Nat.cast_one, Nat.cast_ofNat, Int.add_zero] at h0 h1 h2 h3
  refine ⟨?_, ?_, ?_, ?_⟩
  · rw [h0]; decide
  · rw [h1]; decide
  · rw [h2]; decide
  · rw [h3]; decide

/-- C19 is contradicted by the code. On a packed destination at address 200 with pitch
8 and height 2 (16 bytes, a multiple of 4), with little endian stores, the first four
bytes after `make_black_background_yuv422` are 0x80, 0x00, 0x80, 0x00: the luma bytes
(offsets 0 and 2 in YUYV order) are 0x80 and the chroma bytes (offsets 1 and 3) are
0x00, whereas `make_black_background_yuv420p` writes luma 0x00 and chroma 0x80. -/
theorem make_black_background_yuv422_sample_values :
    (4 : Int) ∣ (packed_frame 200 8 2).GetPitch DEFAULT * (packed_frame 200 8 2).GetHeight DEFAULT
    ∧ make_black_background_yuv422 Endian.little (packed_frame 200 8 2) (fun _ => 0xFF) 200
        = 0x80
    ∧ make_black_background_yuv422 Endian.little (packed_frame 200 8 2) (fun _ => 0xFF) 201
        = 0x00
    ∧ make_black_background_yuv422 Endian.little (packed_frame 200 8 2) (fun _ => 0xFF) 202
        = 0x80
    ∧ make_black_background_yuv422 Endian.little (packed_frame 200 8 2) (fun _ => 0xFF) 203
        = 0x00
    ∧ make_black_background_yuv420p small_planar_frame (fun _ => 0xFF) 100 = 0x00
    ∧ make_black_background_yuv420p small_planar_frame (fun _ => 0xFF) 108 = 0x80
    ∧ make_black_background_yuv420p small_planar_frame (fun _ => 0xFF) 110 = 0x80 := by
  decide

end VideoOutput
